import Mathlib

/-!
Verification development for the NextUP media-tracking core:
a shallow embedding of the key-value storage layer
(`src/Manager/StorageManager.ts`, exported as `LocalStorageManager`),
the collection manager (`src/Manager/DataManager.ts`), the pure helpers
(`src/Utils/helpers.ts`, `src/Types/index.ts`) and the statistics module
(`src/Manager/StatisticsManager.ts`).

Modelling conventions:
* JS timestamps (ISO strings produced by `new Date().toISOString()`) are
  modelled as natural numbers (a logical clock); ISO strings compare
  lexicographically exactly as their instants compare.  ISO strings are
  never empty, so their JS truthiness is `Option.isSome` of the model.
* `uuidv4()` (`generateId`) is modelled as a fresh-identifier supply: a
  counter threaded through the state; freshly generated ids differ from
  all previously generated ones.
* JS numbers that the code compares with `<`, `>` and uses in division
  (`voteAverage`, ratings, progress, ages) are modelled as rationals.
* JSON-(de)serialisation is modelled by storing decoded values directly:
  a stored cell is either `corrupt` (bytes on which `JSON.parse` throws
  a `SyntaxError`) or `good v` (bytes decoding to `v`).
* `async`/`await` with a deterministic in-memory medium is modelled as
  explicit state passing; thrown errors become `Except.error` carrying
  the `StorageError` `code` and `message` fields.
-/

namespace NextUP

/-! ## Data model (src/Types/index.ts) -/

/-- MediaType from `MediaItem.mediaType : 'movie' | 'tv'`. -/
inductive MediaType where
  | movie
  | tv
deriving DecidableEq, Repr

/-- MediaItem (src/Types/index.ts).  `voteAverage` is a JS number, modelled
as a rational. -/
structure MediaItem where
  id : Nat
  title : String
  overview : String
  posterPath : Option String
  backdropPath : Option String
  releaseDate : String
  voteAverage : ℚ
  genreIds : List Nat
  mediaType : MediaType
  originalLanguage : String
deriving DecidableEq, Repr

/-- CollectionStatus from src/Types/index.ts. -/
inductive CollectionStatus where
  | watched
  | watching
  | will_watch
deriving DecidableEq, Repr

/-- CollectionItem (src/Types/index.ts).  `id` is the uuid (modelled as a
fresh natural), timestamps are logical instants, optional fields are
`Option`. -/
structure CollectionItem where
  id : Nat
  mediaItem : MediaItem
  status : CollectionStatus
  addedAt : Nat
  updatedAt : Nat
  userRating : Option ℚ := none
  notes : Option String := none
  watchedDate : Option Nat := none
  progress : Option ℚ := none
deriving DecidableEq, Repr

/-- The collections container persisted under the `collections` key:
`{watched, watching, will_watch}`. -/
structure Collections where
  watched : List CollectionItem
  watching : List CollectionItem
  will_watch : List CollectionItem
deriving DecidableEq, Repr

/-- UserProfile (src/Types/index.ts).  The profile is only read through
field checks, so its timestamps stay in ISO-string form. -/
structure UserProfile where
  id : String
  name : String
  age : ℚ
  preferredGenres : List Nat
  createdAt : String
  updatedAt : String
deriving DecidableEq, Repr

/-- StorageError (src/Types/index.ts): an `Error` subclass with a `code`
field; `name` is always the literal string `StorageError`. -/
structure StorageErr where
  code : String
  message : String
deriving DecidableEq, Repr

/-- JS template interpolation of a StorageError value
(`Error.prototype.toString` gives `name + ": " + message`). -/
def StorageErr.interp (e : StorageErr) : String :=
  "StorageError: " ++ e.message

/-- ValidationResult (src/Types/index.ts). -/
structure ValidationResult where
  isValid : Bool
  errors : List String
deriving DecidableEq, Repr

/-- Extract the `code` of a failed operation result, `none` on success.
Used to state claims about which error code an operation surfaces. -/
def errCode {α : Type} : Except StorageErr α → Option String
  | .error e => some e.code
  | .ok _ => none

/-- JS whitespace for `String.prototype.trim` (the code only ever trims
ordinary text, so the ASCII whitespace class suffices). -/
def isJsSpace (c : Char) : Bool :=
  c = ' ' ∨ c = '\t' ∨ c = '\n' ∨ c = '\r'

/-- `String.prototype.trim()`: drop whitespace from both ends. -/
def jsTrim (s : String) : String :=
  ⟨(((s.data.dropWhile isJsSpace).reverse.dropWhile isJsSpace).reverse :
      List Char)⟩

/-! ## Key-value store (src/Manager/StorageManager.ts)

The underlying AsyncStorage medium holds raw serialized strings.  A cell is
modelled as `RawVal α`: `corrupt` for bytes that `JSON.parse` rejects,
`good v` for bytes that decode to `v`.  The store is an association list in
key-insertion order (AsyncStorage key order is unspecified; only membership
matters to the claims). -/

/-- One stored cell: either undecodable bytes or a decoded value. -/
inductive RawVal (α : Type) where
  | corrupt
  | good (v : α)
deriving DecidableEq, Repr

/-- The storage medium. -/
abbrev Store (α : Type) : Type := List (String × RawVal α)

/-- AsyncStorage.getItem: the raw cell under a key, if present. -/
def Store.cell {α : Type} (s : Store α) (k : String) : Option (RawVal α) :=
  (s.find? (fun p => p.1 == k)).map (·.2)

/-- AsyncStorage.removeItem. -/
def Store.eraseKey {α : Type} (s : Store α) (k : String) : Store α :=
  s.filter (fun p => p.1 ≠ k)

namespace LocalStorageManager

/-- APP_CONFIG.STORAGE_RETRY_ATTEMPTS (src/Utils/constants.ts). -/
def STORAGE_RETRY_ATTEMPTS : Nat := 3

/-- `this.maxRetries`, set in the constructor from APP_CONFIG. -/
def maxRetries : Nat := STORAGE_RETRY_ATTEMPTS

/-- `this.retryDelay`, set in the constructor (1000 ms). -/
def retryDelay : Nat := 1000

/-- The message of the MAX_RETRIES_EXCEEDED error
(`Storage operation failed after N attempts: msg`). -/
def maxRetriesMsg (mr : Nat) (lastError : StorageErr) : String :=
  "Storage operation failed after " ++ toString (mr + 1) ++ " attempts: "
    ++ lastError.message

/-- Codes that `executeWithRetry` refuses to retry
(`['DATA_CORRUPTION', 'INVALID_DATA'].includes(error.code)`). -/
def nonRetriable (e : StorageErr) : Bool :=
  e.code == "DATA_CORRUPTION" || e.code == "INVALID_DATA"

/-- The retry loop of `executeWithRetry`, from attempt number `attempt`.
`op i` is the outcome of the underlying operation on attempt `i`.  Returns
the surfaced result, the number of attempts made, and the list of backoff
delays slept between consecutive attempts (`this.delay(this.retryDelay *
(attempt + 1))`).  The source guard `attempt === maxRetries` is reached
only with `attempt ≤ maxRetries`, where it coincides with the
`maxRetries ≤ attempt` guard used here for termination. -/
def retryLoop {α : Type} (op : Nat → Except StorageErr α)
    (rd mr attempt : Nat) : Except StorageErr α × Nat × List Nat :=
  match op attempt with
  | .ok v => (.ok v, 1, [])
  | .error e =>
    if nonRetriable e then
      (.error e, 1, [])
    else if mr ≤ attempt then
      (.error ⟨"MAX_RETRIES_EXCEEDED", maxRetriesMsg mr e⟩, 1, [])
    else
      let r := retryLoop op rd mr (attempt + 1)
      (r.1, r.2.1 + 1, rd * (attempt + 1) :: r.2.2)
termination_by mr - attempt
decreasing_by omega

/-- `executeWithRetry` (src/Manager/StorageManager.ts, lines 500-541). -/
def executeWithRetry {α : Type} (op : Nat → Except StorageErr α)
    (rd mr : Nat) : Except StorageErr α × Nat × List Nat :=
  retryLoop op rd mr 0

/-- `get<T>(key)` on the deterministic in-memory medium.  On a cell whose
bytes fail `JSON.parse` the key is removed and a DATA_CORRUPTION error is
thrown; the surrounding `executeWithRetry` is outcome-neutral here because
the read is deterministic, succeeds on the first attempt when the cell is
absent or decodable, and its only failure (DATA_CORRUPTION) is in the
non-retriable list, so it is re-thrown before any retry.  Returns the
result together with the post-state of the store. -/
def get {α : Type} (s : Store α) (k : String) :
    Except StorageErr (Option α) × Store α :=
  match s.cell k with
  | none => (.ok none, s)
  | some .corrupt =>
      (.error ⟨"DATA_CORRUPTION",
        "Corrupted data found for key \"" ++ k ++ "\". Data has been cleared."⟩,
       s.eraseKey k)
  | some (.good v) => (.ok (some v), s)

/-- `getAllKeys()`. -/
def getAllKeys {α : Type} (s : Store α) : List String :=
  s.map (·.1)

/-- `getMultiple<T>(keys)` (src/Manager/StorageManager.ts, lines 321-348):
`AsyncStorage.multiGet` followed by per-entry `JSON.parse` in which a parse
failure is logged with `console.warn` and mapped to `null`; nothing is
deleted and no error is raised.  The result keeps the query order of
`keys`, paired with the unchanged store. -/
def getMultiple {α : Type} (s : Store α) (keys : List String) :
    List (String × Option α) × Store α :=
  (keys.map (fun k =>
    (k, match s.cell k with
        | none => none
        | some .corrupt => none
        | some (.good v) => some v)),
   s)

/-- The backup record built by `createBackup` before `JSON.stringify`:
`{ timestamp, version: '1.0.0', data: allData }`. -/
structure Backup (α : Type) where
  timestamp : String
  version : String
  data : List (String × Option α)
deriving DecidableEq, Repr

/-- `createBackup()` (src/Manager/StorageManager.ts, lines 453-471):
`getAllKeys` then `getMultiple`, wrapped into the backup record.  The
serialisation timestamp is a parameter of the embedding. -/
def createBackup {α : Type} (s : Store α) (timestamp : String) :
    Backup α × Store α :=
  (⟨timestamp, "1.0.0", (getMultiple s (getAllKeys s)).1⟩, s)

/-! ### Data migration (src/Manager/StorageManager.ts, lines 420-448)

`migrateData` reads `__data_version__` once (`|| 0` when absent), then for
each migration **in the order of the given array** whose `version` exceeds
that initially read value: reads all data, applies `migration.migrate`,
writes the result back with `setMultiple` and stores
`__data_version__ := migration.version`.  The loop variable
`currentVersion` is never updated inside the loop.  A throwing
`migration.migrate` aborts the whole chain with MIGRATION_ERROR, leaving
the store at the last persisted step.  The full key-value dataset is
abstracted as a type `D`; the version marker is tracked separately because
the code rewrites it explicitly after every step. -/

/-- DataMigration (src/Types/index.ts): `{version, migrate}`, where a
throwing `migrate` is an `Except.error`. -/
structure DataMigration (D : Type) where
  version : Nat
  migrate : D → Except Unit D

/-- The persistent state seen by `migrateData`: the stored
`__data_version__` marker (none when absent) and the rest of the data. -/
structure MigStore (D : Type) where
  version : Option Nat
  data : D
deriving DecidableEq, Repr

/-- The migration loop body; `v0` is the initially read version, fixed for
the whole loop exactly as in the source. -/
def migrateGo {D : Type} (v0 : Nat) :
    List (DataMigration D) → MigStore D → Except StorageErr Unit × MigStore D
  | [], st => (.ok (), st)
  | m :: rest, st =>
    if v0 < m.version then
      match m.migrate st.data with
      | .error _ =>
          (.error ⟨"MIGRATION_ERROR", "Data migration failed"⟩, st)
      | .ok d2 => migrateGo v0 rest ⟨some m.version, d2⟩
    else
      migrateGo v0 rest st

/-- `migrateData(migrations)`. -/
def migrateData {D : Type} (migrations : List (DataMigration D))
    (st : MigStore D) : Except StorageErr Unit × MigStore D :=
  migrateGo (st.version.getD 0) migrations st

/-- Modelled from the spec (amended reading): apply, in the order of the
given list, exactly the migrations whose version exceeds the initially
stored version, persisting data and version marker after each step and
halting at the first failing step with the store left at the last
successful one. -/
def migrateDataListOrder {D : Type} (migrations : List (DataMigration D))
    (st : MigStore D) : Except StorageErr Unit × MigStore D :=
  applySteps (migrations.filter (fun m => st.version.getD 0 < m.version)) st
where
  applySteps : List (DataMigration D) → MigStore D →
      Except StorageErr Unit × MigStore D
    | [], st => (.ok (), st)
    | m :: rest, st =>
      match m.migrate st.data with
      | .error _ =>
          (.error ⟨"MIGRATION_ERROR", "Data migration failed"⟩, st)
      | .ok d2 => applySteps rest ⟨some m.version, d2⟩

end LocalStorageManager

/-! ## Reading the collections record (src/Manager/DataManager.ts)

What `storageManager.get(STORAGE_KEYS.COLLECTIONS)` decodes is arbitrary
JSON: each of the three fields may be missing, and each array entry may
fail the `isCollectionItem` type guard.  `RawItem.valid` holds an entry the
guard accepts; `RawItem.malformed` is any entry it rejects. -/

/-- One entry of a stored collections array, as seen by the
`isCollectionItem` type guard (src/Types/index.ts). -/
inductive RawItem where
  | valid (item : CollectionItem)
  | malformed
deriving DecidableEq, Repr

/-- The `isCollectionItem` type guard. -/
def isCollectionItemB : RawItem → Bool
  | .valid _ => true
  | .malformed => false

/-- The decoded (but not yet validated) collections record; a `none` field
models a missing (`undefined`) property. -/
structure RawCollections where
  watched : Option (List RawItem)
  watching : Option (List RawItem)
  will_watch : Option (List RawItem)
deriving DecidableEq, Repr

/-- `collections.f?.filter(isCollectionItem) || []`: missing field gives
`[]`; otherwise entries failing the guard are dropped. -/
def filterValidItems (o : Option (List RawItem)) : List CollectionItem :=
  match o with
  | none => []
  | some l => l.filterMap (fun r =>
      match r with
      | .valid i => some i
      | .malformed => none)

namespace DataManager

/-- The empty collections record returned when nothing is stored. -/
def emptyCollections : Collections := ⟨[], [], []⟩

/-- `getAllCollections()` (src/Manager/DataManager.ts, lines 264-298),
running over the storage model: reads the `collections` key through
`LocalStorageManager.get`; a `null` read yields the empty record; a
decoded record is validated field by field; any thrown error (in
particular the DATA_CORRUPTION one) is wrapped as GET_COLLECTIONS_ERROR.
Returns the result and the post-state of the store. -/
def getAllCollections (s : Store RawCollections) :
    Except StorageErr Collections × Store RawCollections :=
  match LocalStorageManager.get s "collections" with
  | (.error e, s2) =>
      (.error ⟨"GET_COLLECTIONS_ERROR",
        "Failed to get collections: " ++ e.interp⟩, s2)
  | (.ok none, s2) => (.ok emptyCollections, s2)
  | (.ok (some rc), s2) =>
      (.ok ⟨filterValidItems rc.watched, filterValidItems rc.watching,
            filterValidItems rc.will_watch⟩, s2)

end DataManager

/-! ## Collection mutation (src/Manager/DataManager.ts)

Every mutating operation reads the whole collections record, mutates an
in-memory copy and writes the whole record back.  With a deterministic
healthy medium the read returns exactly the record previously saved, so
the operations below act directly on a `Collections` value; `freshId`
models the `uuidv4()` produced by `generateId`, `now` the instant of
`new Date().toISOString()`.  Each operation returns the surfaced result
together with the persisted collections record (unchanged on failure,
since the save is only reached on success). -/

/-- Read a partition (`collections[status]`). -/
def Collections.part (c : Collections) : CollectionStatus → List CollectionItem
  | .watched => c.watched
  | .watching => c.watching
  | .will_watch => c.will_watch

/-- Write a partition. -/
def Collections.setPart (c : Collections) :
    CollectionStatus → List CollectionItem → Collections
  | .watched, l => { c with watched := l }
  | .watching, l => { c with watching := l }
  | .will_watch, l => { c with will_watch := l }

/-- `getAllItems()` order: watched, then watching, then will_watch. -/
def Collections.items (c : Collections) : List CollectionItem :=
  c.watched ++ c.watching ++ c.will_watch

/-- The media ids present across the three partitions, in `items` order. -/
def Collections.mediaIds (c : Collections) : List Nat :=
  c.items.map (fun i => i.mediaItem.id)

/-- The collection-item ids (uuids) across the three partitions. -/
def Collections.itemIds (c : Collections) : List Nat :=
  c.items.map (·.id)

/-- The sum of the three partition sizes. -/
def Collections.totalSize (c : Collections) : Nat :=
  c.watched.length + c.watching.length + c.will_watch.length

/-- `createCollectionItem` (src/Utils/helpers.ts): fresh uuid, both
timestamps set to now, optional fields absent. -/
def createCollectionItem (m : MediaItem) (st : CollectionStatus)
    (freshId now : Nat) : CollectionItem :=
  { id := freshId, mediaItem := m, status := st, addedAt := now,
    updatedAt := now }

/-- `updateCollectionItemStatus` (src/Utils/helpers.ts): sets the status
and `updatedAt`; clears `watchedDate` when moving away from `watched`,
sets it to now when moving to `watched` with no date recorded yet
(`!item.watchedDate`: ISO strings are truthy exactly when present). -/
def updateCollectionItemStatus (item : CollectionItem)
    (newStatus : CollectionStatus) (now : Nat) : CollectionItem :=
  { item with
    status := newStatus
    updatedAt := now
    watchedDate :=
      if newStatus ≠ .watched then none
      else match item.watchedDate with
        | none => some now
        | some d => some d }

/-- `findCollectionItemByMediaId` (src/Utils/helpers.ts):
`collection.find(item => item.mediaItem.id === mediaId)`. -/
def findCollectionItemByMediaId (mediaId : Nat)
    (collection : List CollectionItem) : Option CollectionItem :=
  collection.find? (fun i => i.mediaItem.id == mediaId)

namespace DataManager

/-- `findItemByMediaId` (src/Manager/DataManager.ts, lines 483-494):
scans the partitions in `Object.keys` order (watched, watching,
will_watch) and returns the first hit. -/
def findItemByMediaId (c : Collections) (mediaId : Nat) :
    Option CollectionItem :=
  (findCollectionItemByMediaId mediaId c.watched).orElse fun _ =>
    (findCollectionItemByMediaId mediaId c.watching).orElse fun _ =>
      findCollectionItemByMediaId mediaId c.will_watch

/-- `addItem(mediaItem, status)` (src/Manager/DataManager.ts, lines
321-351).  A duplicate media id raises DUPLICATE_ITEM inside the `try`
block, whose own `catch` re-wraps every error as ADD_ITEM_ERROR with the
stringified cause appended; on success the fresh item is appended to the
target partition and the record persisted. -/
def addItem (c : Collections) (freshId now : Nat) (m : MediaItem)
    (status : CollectionStatus) :
    Except StorageErr CollectionItem × Collections :=
  match findItemByMediaId c m.id with
  | some _ =>
      (.error ⟨"ADD_ITEM_ERROR",
        "Failed to add item to collection: " ++
          StorageErr.interp ⟨"DUPLICATE_ITEM",
            "Media item already exists in collection"⟩⟩, c)
  | none =>
      let newItem := createCollectionItem m status freshId now
      (.ok newItem, c.setPart status (c.part status ++ [newItem]))

/-- `splice` of the first entry with the given item id, if any:
`findIndex` followed by `splice(index, 1)`.  Returns the remaining list
and the removed entry. -/
def extractById (itemId : Nat) : List CollectionItem →
    List CollectionItem × Option CollectionItem
  | [] => ([], none)
  | i :: rest =>
    if i.id = itemId then (rest, some i)
    else
      let r := extractById itemId rest
      (i :: r.1, r.2)

/-- `removeItem(itemId)` (src/Manager/DataManager.ts, lines 356-387):
splices the first match out of every partition; ITEM_NOT_FOUND (wrapped by
the `catch` as REMOVE_ITEM_ERROR) when no partition matched. -/
def removeItem (c : Collections) (itemId : Nat) :
    Except StorageErr Unit × Collections :=
  let w := extractById itemId c.watched
  let g := extractById itemId c.watching
  let f := extractById itemId c.will_watch
  if w.2.isSome || g.2.isSome || f.2.isSome then
    (.ok (), ⟨w.1, g.1, f.1⟩)
  else
    (.error ⟨"REMOVE_ITEM_ERROR",
      "Failed to remove item: " ++
        StorageErr.interp ⟨"ITEM_NOT_FOUND",
          "Item not found in any collection"⟩⟩, c)

/-- `updateItemStatus(itemId, newStatus)` (src/Manager/DataManager.ts,
lines 392-428): splices the match out of each partition (the `forEach`
leaves the **last** partition hit in the `item` variable), applies
`updateCollectionItemStatus` and appends to the target partition;
ITEM_NOT_FOUND is wrapped as UPDATE_STATUS_ERROR. -/
def updateItemStatus (c : Collections) (now itemId : Nat)
    (newStatus : CollectionStatus) :
    Except StorageErr CollectionItem × Collections :=
  let w := extractById itemId c.watched
  let g := extractById itemId c.watching
  let f := extractById itemId c.will_watch
  match (f.2.orElse fun _ => (g.2.orElse fun _ => w.2)) with
  | none =>
      (.error ⟨"UPDATE_STATUS_ERROR",
        "Failed to update item status: " ++
          StorageErr.interp ⟨"ITEM_NOT_FOUND", "Item not found"⟩⟩, c)
  | some item =>
      let u := updateCollectionItemStatus item newStatus now
      let c1 : Collections := ⟨w.1, g.1, f.1⟩
      (.ok u, c1.setPart newStatus (c1.part newStatus ++ [u]))

end DataManager

/-- The single-field payloads `updateItemField` receives from
`updateItemRating` (`{userRating}`), `updateItemNotes` (`{notes}`) and
`updateItemProgress` (`{progress}`). -/
inductive FieldUpdate where
  | rating (r : ℚ)
  | noteText (n : String)
  | progress (p : ℚ)
deriving DecidableEq, Repr

/-- The object spread `{...item, ...updates, updatedAt: now}` for a
single-field update payload. -/
def applyFieldUpdate (item : CollectionItem) (u : FieldUpdate)
    (now : Nat) : CollectionItem :=
  match u with
  | .rating r => { item with userRating := some r, updatedAt := now }
  | .noteText n => { item with notes := some n, updatedAt := now }
  | .progress p => { item with progress := some p, updatedAt := now }

/-- Replace the first entry carrying the given item id
(`findIndex` then `collection[index] = updatedItem`). -/
def replaceFirstById (itemId : Nat) (newItem : CollectionItem) :
    List CollectionItem → List CollectionItem
  | [] => []
  | i :: rest =>
    if i.id = itemId then newItem :: rest
    else i :: replaceFirstById itemId newItem rest

namespace DataManager

/-- `updateItemField(itemId, updates)` (src/Manager/DataManager.ts, lines
535-584): the `forEach`-with-`find` leaves the **last** partition
containing the id in `collectionStatus`; the updated item replaces the
first index match inside that partition; ITEM_NOT_FOUND is wrapped as
UPDATE_FIELD_ERROR. -/
def updateItemField (c : Collections) (now itemId : Nat)
    (u : FieldUpdate) : Except StorageErr CollectionItem × Collections :=
  let found : Option (CollectionItem × CollectionStatus) :=
    ((c.will_watch.find? (·.id == itemId)).map (·, .will_watch)).orElse fun _ =>
      ((c.watching.find? (·.id == itemId)).map (·, .watching)).orElse fun _ =>
        (c.watched.find? (·.id == itemId)).map (·, .watched)
  match found with
  | none =>
      (.error ⟨"UPDATE_FIELD_ERROR",
        "Failed to update item field: " ++
          StorageErr.interp ⟨"ITEM_NOT_FOUND", "Item not found"⟩⟩, c)
  | some (item, st) =>
      let updatedItem := applyFieldUpdate item u now
      (.ok updatedItem,
       c.setPart st (replaceFirstById itemId updatedItem (c.part st)))

/-- `updateItemRating(itemId, rating)` (src/Manager/DataManager.ts, lines
433-442): the bounds check throws INVALID_RATING directly (outside any
`try`), then delegates to `updateItemField`. -/
def updateItemRating (c : Collections) (now itemId : Nat) (rating : ℚ) :
    Except StorageErr CollectionItem × Collections :=
  if rating < 1 ∨ 10 < rating then
    (.error ⟨"INVALID_RATING", "Rating must be between 1 and 10"⟩, c)
  else
    updateItemField c now itemId (.rating rating)

/-- `updateItemNotes(itemId, notes)` (lines 447-456): NOTES_TOO_LONG above
500 characters, otherwise stores the trimmed text. -/
def updateItemNotes (c : Collections) (now itemId : Nat) (notes : String) :
    Except StorageErr CollectionItem × Collections :=
  if 500 < notes.length then
    (.error ⟨"NOTES_TOO_LONG", "Notes cannot exceed 500 characters"⟩, c)
  else
    updateItemField c now itemId (.noteText (jsTrim notes))

/-- `updateItemProgress(itemId, progress)` (lines 461-470):
INVALID_PROGRESS outside [0, 100]. -/
def updateItemProgress (c : Collections) (now itemId : Nat) (progress : ℚ) :
    Except StorageErr CollectionItem × Collections :=
  if progress < 0 ∨ 100 < progress then
    (.error ⟨"INVALID_PROGRESS", "Progress must be between 0 and 100"⟩, c)
  else
    updateItemField c now itemId (.progress progress)

/-- The private `validateUserProfile` (src/Manager/DataManager.ts, lines
589-616).  JS falsiness: `!profile.name` holds for the empty string,
`!profile.age` for age zero, `!profile.preferredGenres` never for an
array value, `!profile.id` / `!profile.createdAt` / `!profile.updatedAt`
for empty strings.  All violated rules are appended to one list. -/
def validateUserProfile (profile : UserProfile) : ValidationResult :=
  let e1 : List String :=
    if profile.name = "" ∨ (jsTrim profile.name).length < 1 then
      ["Name is required"] else []
  let e2 : List String :=
    if profile.name ≠ "" ∧ 50 < profile.name.length then
      ["Name cannot exceed 50 characters"] else []
  let e3 : List String :=
    if profile.age = 0 ∨ profile.age < 1 ∨ 120 < profile.age then
      ["Age must be between 1 and 120"] else []
  let e4 : List String :=
    if profile.preferredGenres = [] then
      ["At least one preferred genre is required"] else []
  let e5 : List String :=
    if profile.id = "" ∨ profile.createdAt = "" ∨ profile.updatedAt = "" then
      ["Profile is missing required system fields"] else []
  let errors := e1 ++ e2 ++ e3 ++ e4 ++ e5
  ⟨errors.isEmpty, errors⟩

/-- `saveUserProfile(profile)` for a non-null profile (src/Manager/
DataManager.ts, lines 169-196) on a healthy medium: the only failure is
the INVALID_PROFILE_DATA thrown inside the `try`, which its own `catch`
re-wraps as SAVE_PROFILE_ERROR with the stringified cause. -/
def saveUserProfile (profile : UserProfile) : Except StorageErr Unit :=
  let validation := validateUserProfile profile
  if validation.isValid then .ok ()
  else
    .error ⟨"SAVE_PROFILE_ERROR",
      "Failed to save user profile: " ++
        StorageErr.interp ⟨"INVALID_PROFILE_DATA",
          "Invalid profile data: " ++
            String.intercalate ", " validation.errors⟩⟩

/-- `createUserProfile(name, age, preferredGenres)` (src/Manager/
DataManager.ts, lines 201-218): stamps `generateId()` (the `uid`
parameter, a uuid and hence never empty) and `new Date().toISOString()`
(the `now` parameter, never empty), trims the name, and saves. -/
def createUserProfile (name : String) (age : ℚ)
    (preferredGenres : List Nat) (uid now : String) :
    Except StorageErr UserProfile :=
  let profile : UserProfile :=
    { id := uid, name := jsTrim name, age := age,
      preferredGenres := preferredGenres, createdAt := now,
      updatedAt := now }
  match saveUserProfile profile with
  | .error e => .error e
  | .ok _ => .ok profile

end DataManager

/-! ## Statistics (src/Manager/StatisticsManager.ts)

All functions are pure over their inputs.  JS `Map` iteration order is
insertion order, modelled with association lists bumped in place.
`Array.prototype.sort` is stable, so its result is the unique stable
ordering produced by the comparator; the insertion sorts below are stable
for the same comparators.  Date handling (`new Date(...).getFullYear()`,
`toDateString`, month keys, the current date) is environment input,
bundled as an uninterpreted `DateEnv`; `getTime()` of a watched-date
timestamp is the timestamp itself. -/

/-- The date primitives `StatisticsManager` consumes from the runtime. -/
structure DateEnv where
  yearOf : String → Int
  dayOf : Nat → Int
  monthKeyOf : Nat → String
  todayDay : Int

/-- Bump a counter map (`map.set(k, (map.get(k) || 0) + 1)`), preserving
first-insertion iteration order. -/
def bumpCount {κ : Type} [DecidableEq κ] (key : κ) :
    List (κ × Nat) → List (κ × Nat)
  | [] => [(key, 1)]
  | (k, c) :: rest =>
    if k = key then (k, c + 1) :: rest else (k, c) :: bumpCount key rest

/-- JS `toFixed(1)` then `Number(...)` on a non-negative value, in exact
rational arithmetic: round half away from zero to one decimal. -/
def roundTo1 (q : ℚ) : ℚ := (round (q * 10) : ℚ) / 10

namespace StatisticsManager

/-- The WatchStatistics record (src/Manager/StatisticsManager.ts).  The
`Map`-valued fields are association lists in insertion order. -/
structure WatchStatistics where
  totalWatched : Nat
  totalWatching : Nat
  totalWillWatch : Nat
  totalMovies : Nat
  totalTVShows : Nat
  totalHoursWatched : Nat
  averageRating : ℚ
  topGenres : List (Nat × Nat)
  favoriteYear : Option (List Int)
  mostWatchedGenre : Option String
  viewingStreak : Nat
  lastWatchDate : Option Nat
  genreBreakdown : List (String × Nat)
  yearDistribution : List (Int × Nat)
  monthlyWatchActivity : List (String × Nat)

/-- `countMediaType`. -/
def countMediaType (items : List CollectionItem) (t : MediaType) : Nat :=
  (items.filter (fun i => i.mediaItem.mediaType == t)).length

/-- `calculateTotalHours`: 2 hours per movie, 10 per show. -/
def calculateTotalHours (items : List CollectionItem) : Nat :=
  items.foldl
    (fun total i =>
      match i.mediaItem.mediaType with
      | .movie => total + 2
      | .tv => total + 10) 0

/-- `calculateAverageRating` (lines 135-144): filters the items whose
`mediaItem.voteAverage` is truthy (nonzero), and averages that field
(`|| 0` never fires after the filter), with `toFixed(1)` rounding. -/
def calculateAverageRating (items : List CollectionItem) : ℚ :=
  let ratedItems := items.filter (fun i => i.mediaItem.voteAverage ≠ 0)
  if ratedItems.length = 0 then 0
  else
    roundTo1 ((ratedItems.map (fun i => i.mediaItem.voteAverage)).sum
      / ratedItems.length)

/-- Stable insertion into a count-descending list: the entry goes in front
of the first strictly smaller count, exactly where the stable JS
`sort((a, b) => b.count - a.count)` keeps it. -/
def insertByCountDesc {κ : Type} (x : κ × Nat) :
    List (κ × Nat) → List (κ × Nat)
  | [] => [x]
  | y :: rest =>
    if y.2 < x.2 then x :: y :: rest else y :: insertByCountDesc x rest

/-- Stable sort by count descending. -/
def sortByCountDesc {κ : Type} (l : List (κ × Nat)) : List (κ × Nat) :=
  l.foldl (fun acc x => insertByCountDesc x acc) []

/-- `getTopGenres`: genre frequency over the items, sorted by count
descending, first five. -/
def getTopGenres (items : List CollectionItem) : List (Nat × Nat) :=
  let genreMap := items.foldl
    (fun acc i => i.mediaItem.genreIds.foldl (fun a g => bumpCount g a) acc)
    []
  (sortByCountDesc genreMap).take 5

/-- `getFavoriteYear`: all years tied for the maximal frequency, `null`
for an empty input. -/
def getFavoriteYear (env : DateEnv) (items : List CollectionItem) :
    Option (List Int) :=
  if items.length = 0 then none
  else
    let yearMap := items.foldl
      (fun a i => bumpCount (env.yearOf i.mediaItem.releaseDate) a) []
    let maxCount := (yearMap.map (·.2)).foldl max 0
    some ((yearMap.filter (fun p => p.2 = maxCount)).map (·.1))

/-- The `.filter((date, index, arr) => index === 0 || arr[index-1] !==
date)` pass: drop entries equal to their predecessor in the original
array. -/
def dropConsecDups : List Int → List Int
  | [] => []
  | x :: rest => x :: dropAfter x rest
where
  dropAfter (prev : Int) : List Int → List Int
    | [] => []
    | y :: rest =>
      if y = prev then dropAfter y rest else y :: dropAfter y rest

/-- Stable insertion into a descending list of days
(`sort((a, b) => b.getTime() - a.getTime())`). -/
def insertDescInt (x : Int) : List Int → List Int
  | [] => [x]
  | y :: rest => if y < x then x :: y :: rest else y :: insertDescInt x rest

/-- Stable sort descending. -/
def sortDescInt (l : List Int) : List Int :=
  l.foldl (fun acc x => insertDescInt x acc) []

/-- The extension loop of `calculateViewingStreak`: each further day at
distance exactly one extends the streak, anything else breaks it. -/
def streakLoop (current : Int) : List Int → Nat
  | [] => 0
  | prev :: rest =>
    if current - prev = 1 then 1 + streakLoop prev rest else 0

/-- `calculateViewingStreak` (lines 191-234): watched days, de-duplicated
consecutively, sorted descending; zero when the most recent watch is more
than one day before today; otherwise one plus the run of consecutive
previous days. -/
def calculateViewingStreak (env : DateEnv)
    (items : List CollectionItem) : Nat :=
  if items.length = 0 then 0
  else
    let ds := sortDescInt (dropConsecDups
      ((items.filter (fun i => i.watchedDate.isSome)).filterMap
        (fun i => i.watchedDate.map env.dayOf)))
    match ds with
    | [] => 0
    | d0 :: rest =>
      if 1 < env.todayDay - d0 then 0
      else 1 + streakLoop d0 rest

/-- `getLastWatchDate` (lines 239-250): `reduce` keeping the later
watched-date (strictly greater wins, the first element is the seed). -/
def getLastWatchDate (items : List CollectionItem) : Option Nat :=
  match items.filter (fun i => i.watchedDate.isSome) with
  | [] => none
  | x :: rest =>
    (rest.foldl
      (fun latest item =>
        if latest.watchedDate.getD 0 < item.watchedDate.getD 0 then item
        else latest) x).watchedDate

/-- `getGenreBreakdown`: frequency map keyed by `genre_<id>`. -/
def getGenreBreakdown (items : List CollectionItem) :
    List (String × Nat) :=
  items.foldl
    (fun acc i => i.mediaItem.genreIds.foldl
      (fun a g => bumpCount ("genre_" ++ toString g) a) acc) []

/-- `getYearDistribution`: frequency map of release years. -/
def getYearDistribution (env : DateEnv) (items : List CollectionItem) :
    List (Int × Nat) :=
  items.foldl
    (fun a i => bumpCount (env.yearOf i.mediaItem.releaseDate) a) []

/-- `getMonthlyActivity`: frequency map of `YYYY-MM` keys of the watched
dates. -/
def getMonthlyActivity (env : DateEnv) (items : List CollectionItem) :
    List (String × Nat) :=
  items.foldl
    (fun a i =>
      match i.watchedDate with
      | some d => bumpCount (env.monthKeyOf d) a
      | none => a) []

/-- `calculateStatistics(watchedItems, watchingItems, willWatchItems)`
(src/Manager/StatisticsManager.ts, lines 52-79).  Every derived field
except the three sizes is computed from the watched partition alone;
`mostWatchedGenre` is hard-coded `null`. -/
def calculateStatistics (env : DateEnv)
    (watchedItems watchingItems willWatchItems : List CollectionItem) :
    WatchStatistics :=
  { totalWatched := watchedItems.length
    totalWatching := watchingItems.length
    totalWillWatch := willWatchItems.length
    totalMovies := countMediaType watchedItems .movie
    totalTVShows := countMediaType watchedItems .tv
    totalHoursWatched := calculateTotalHours watchedItems
    averageRating := calculateAverageRating watchedItems
    topGenres := getTopGenres watchedItems
    favoriteYear := getFavoriteYear env watchedItems
    mostWatchedGenre := none
    viewingStreak := calculateViewingStreak env watchedItems
    lastWatchDate := getLastWatchDate watchedItems
    genreBreakdown := getGenreBreakdown watchedItems
    yearDistribution := getYearDistribution env watchedItems
    monthlyWatchActivity := getMonthlyActivity env watchedItems }

end StatisticsManager

/-! ## Operation sequences over the collection manager

The claims about sequences of operations quantify over runs of the
DataManager starting from the empty collections record.  `DMState`
carries the persisted record, the `generateId` supply (`nextId`) and the
logical clock (`now`), advancing by one tick per operation. -/

/-- A mutating collection operation a caller can issue. -/
inductive Op where
  | add (m : MediaItem) (status : CollectionStatus)
  | setStatus (itemId : Nat) (status : CollectionStatus)
  | remove (itemId : Nat)

/-- The manager-visible persistent state for a run. -/
structure DMState where
  collections : Collections
  nextId : Nat
  now : Nat

/-- The state at first launch: nothing stored, so `getAllCollections`
yields the empty record. -/
def DMState.init : DMState := ⟨DataManager.emptyCollections, 0, 0⟩

/-- One operation applied to the state, also reporting whether it was a
successful add or a successful remove.  `generateId` is consumed exactly
when `createCollectionItem` runs, i.e. on a non-duplicate add. -/
def DMState.step (s : DMState) (o : Op) : DMState × Bool × Bool :=
  match o with
  | .add m status =>
    let r := DataManager.addItem s.collections s.nextId s.now m status
    match r.1 with
    | .ok _ => (⟨r.2, s.nextId + 1, s.now + 1⟩, true, false)
    | .error _ => (⟨r.2, s.nextId, s.now + 1⟩, false, false)
  | .setStatus itemId status =>
    let r := DataManager.updateItemStatus s.collections s.now itemId status
    (⟨r.2, s.nextId, s.now + 1⟩, false, false)
  | .remove itemId =>
    let r := DataManager.removeItem s.collections itemId
    match r.1 with
    | .ok _ => (⟨r.2, s.nextId, s.now + 1⟩, false, true)
    | .error _ => (⟨r.2, s.nextId, s.now + 1⟩, false, false)

/-- One fold step of a run: apply the operation and bump the counters of
successful adds and successful removes. -/
def stepCount (acc : DMState × Nat × Nat) (o : Op) : DMState × Nat × Nat :=
  let r := acc.1.step o
  (r.1, acc.2.1 + (if r.2.1 then 1 else 0),
   acc.2.2 + (if r.2.2 then 1 else 0))

/-- Fold a run from first launch, counting successful adds and removes. -/
def runOps (ops : List Op) : DMState × Nat × Nat :=
  ops.foldl stepCount (DMState.init, 0, 0)

/-- How many of the three partitions contain an item with the given media
id. -/
def Collections.partsContaining (c : Collections) (mediaId : Nat) : Nat :=
  (if c.watched.any (fun i => i.mediaItem.id == mediaId) then 1 else 0) +
  (if c.watching.any (fun i => i.mediaItem.id == mediaId) then 1 else 0) +
  (if c.will_watch.any (fun i => i.mediaItem.id == mediaId) then 1 else 0)

/-- The state invariant maintained by every run: media ids are pairwise
distinct across the three partitions, collection-item ids are pairwise
distinct, and every stored id was drawn from the exhausted part of the
fresh-id supply. -/
structure DMInv (s : DMState) : Prop where
  media_nodup : s.collections.mediaIds.Nodup
  item_nodup : s.collections.itemIds.Nodup
  ids_lt : ∀ i ∈ s.collections.items, i.id < s.nextId

/-- A mutation applied to one collection item, together with the other
claims-relevant operations touching the same item. -/
inductive ItemMutation where
  | setStatus (status : CollectionStatus)
  | field (u : FieldUpdate)

/-- The item-level effect of a mutation issued at instant `now`:
`updateItemStatus` rewrites the item through `updateCollectionItemStatus`,
the three field updates through `applyFieldUpdate`. -/
def applyMutation (i : CollectionItem) : Nat × ItemMutation → CollectionItem
  | (now, .setStatus status) => updateCollectionItemStatus i status now
  | (now, .field u) => applyFieldUpdate i u now

/-! ## Concrete sample values used by witnesses and counterexamples -/

/-- A sample catalog entry. -/
def sampleMovie : MediaItem :=
  { id := 42, title := "Arrival", overview := "first contact",
    posterPath := some "/p.jpg", backdropPath := none,
    releaseDate := "2016-11-11", voteAverage := 79/10, genreIds := [878, 18],
    mediaType := .movie, originalLanguage := "en" }

/-- A second sample entry with a different catalog id. -/
def sampleShow : MediaItem :=
  { sampleMovie with
    id := 7, title := "Dark", mediaType := .tv, voteAverage := 8 }

/-- A sample entry whose `voteAverage` is zero (falsy in JS). -/
def sampleUnrated : MediaItem :=
  { sampleMovie with id := 9, title := "Obscure", voteAverage := 0 }

/-- The collection item produced by adding `sampleMovie` at instant 0. -/
def sampleItem : CollectionItem :=
  createCollectionItem sampleMovie .will_watch 0 0

/-- A watched wrapper around a media entry, used by statistics inputs. -/
def watchedOf (m : MediaItem) : CollectionItem :=
  createCollectionItem m .watched 0 0

/-- A degenerate date environment for statistics runs whose date-derived
fields are irrelevant. -/
def trivDateEnv : DateEnv :=
  ⟨fun _ => 0, fun n => n, fun _ => "", 0⟩

/-- A store whose `collections` cell holds undecodable bytes. -/
def corruptCollectionsStore : Store RawCollections :=
  [("collections", RawVal.corrupt)]

/-! ## Supporting lemmas -/

theorem Store.cell_eraseKey {α : Type} (s : Store α) (k : String) :
    (s.eraseKey k).cell k = none := by
  induction s with
  | nil => rfl
  | cons p rest ih =>
    by_cases hp : p.1 = k
    · have hb : decide (p.1 ≠ k) = false := by simp [hp]
      simp only [Store.eraseKey, List.filter, hb]
      exact ih
    · have hb : decide (p.1 ≠ k) = true := by simp [hp]
      have hbeq : (p.1 == k) = false := by simp [hp]
      simp only [Store.eraseKey, List.filter, hb, Store.cell, List.find?, hbeq]
      exact ih

/-! ### C1: corrupt bytes under the `collections` key -/

/-- C1 counterexample: when the raw bytes stored under `collections` fail
to decode, `getAllCollections()` does **not** return the empty collections
record — it surfaces an error instead, refuting the claimed lenient-read
fallback. -/
theorem C1_counterexample :
    (DataManager.getAllCollections corruptCollectionsStore).1 ≠
      .ok DataManager.emptyCollections ∧
    errCode (DataManager.getAllCollections corruptCollectionsStore).1 =
      some "GET_COLLECTIONS_ERROR" := by
  constructor
  · intro h
    simp [DataManager.getAllCollections, LocalStorageManager.get,
      corruptCollectionsStore, Store.cell, List.find?] at h
  · rfl

/-- C1 amended: for every storage state whose `collections` cell holds
undecodable bytes, `getAllCollections()` fails with GET_COLLECTIONS_ERROR
wrapping the DATA_CORRUPTION error; the corrupted key is deleted as a side
effect, so an immediately following `getAllCollections()` returns the
empty collections record.  (The empty record is returned directly only
when the key is absent.) -/
theorem C1_corrupt_collections_read (s : Store RawCollections)
    (h : s.cell "collections" = some RawVal.corrupt) :
    (DataManager.getAllCollections s).1 =
      .error ⟨"GET_COLLECTIONS_ERROR",
        "Failed to get collections: StorageError: Corrupted data found for key \"collections\". Data has been cleared."⟩ ∧
    (DataManager.getAllCollections s).2.cell "collections" = none ∧
    (DataManager.getAllCollections (DataManager.getAllCollections s).2).1 =
      .ok DataManager.emptyCollections := by
  have h2 : (DataManager.getAllCollections s).2 = s.eraseKey "collections" := by
    simp [DataManager.getAllCollections, LocalStorageManager.get, h]
  refine ⟨?_, ?_, ?_⟩
  · simp [DataManager.getAllCollections, LocalStorageManager.get, h,
      StorageErr.interp]
  · rw [h2]; exact Store.cell_eraseKey s "collections"
  · rw [h2]
    simp [DataManager.getAllCollections, LocalStorageManager.get,
      Store.cell_eraseKey s "collections"]

/-- C1 witness: the amended theorem applied to the one-cell corrupt
store. -/
theorem C1_corrupt_collections_read_witness :
    (DataManager.getAllCollections corruptCollectionsStore).1 =
      .error ⟨"GET_COLLECTIONS_ERROR",
        "Failed to get collections: StorageError: Corrupted data found for key \"collections\". Data has been cleared."⟩ ∧
    (DataManager.getAllCollections corruptCollectionsStore).2.cell
      "collections" = none ∧
    (DataManager.getAllCollections
        (DataManager.getAllCollections corruptCollectionsStore).2).1 =
      .ok DataManager.emptyCollections :=
  C1_corrupt_collections_read corruptCollectionsStore rfl

namespace LocalStorageManager

theorem retryLoop_bound_delays {α : Type} (op : Nat → Except StorageErr α)
    (rd mr : Nat) : ∀ f a, a ≤ mr → mr - a ≤ f →
    1 ≤ (retryLoop op rd mr a).2.1 ∧
    (retryLoop op rd mr a).2.1 ≤ mr + 1 - a ∧
    (retryLoop op rd mr a).2.2 =
      (List.range ((retryLoop op rd mr a).2.1 - 1)).map
        (fun j => rd * (a + j + 1)) := by
  intro f
  induction f with
  | zero =>
    intro a ha hf
    have haa : a = mr := by omega
    subst haa
    rw [retryLoop]
    cases hop : op a with
    | ok v => simp
    | error e =>
      by_cases hnr : nonRetriable e
      · simp [hnr]
      · simp [hnr]
  | succ f ih =>
    intro a ha hf
    rw [retryLoop]
    cases hop : op a with
    | ok v => simp; omega
    | error e =>
      by_cases hnr : nonRetriable e
      · simp [hnr]; omega
      · by_cases hma : mr ≤ a
        · simp [hnr, hma]; omega
        · have har : a + 1 ≤ mr := by omega
          obtain ⟨h1, h2, h3⟩ := ih (a + 1) har (by omega)
          simp only [hnr, hma, if_false, if_neg, Bool.false_eq_true]
          refine ⟨by omega, by omega, ?_⟩
          simp only [h3]
          obtain ⟨k, hk⟩ : ∃ k, (retryLoop op rd mr (a + 1)).2.1 = k + 1 :=
            ⟨(retryLoop op rd mr (a + 1)).2.1 - 1, by omega⟩
          rw [hk]
          simp only [Nat.add_sub_cancel, List.range_succ_eq_map, List.map_cons,
            List.map_map]
          congr 1
          apply List.map_congr_left
          intro j hj
          simp only [Function.comp_apply, Nat.succ_eq_add_one]
          ring

theorem retryLoop_all_fail {α : Type} (op : Nat → Except StorageErr α)
    (rd mr : Nat)
    (hfail : ∀ i, i ≤ mr → ∃ e, op i = .error e ∧ nonRetriable e = false) :
    ∀ f a, a ≤ mr → mr - a ≤ f →
    ∃ e, op mr = .error e ∧
      retryLoop op rd mr a =
        (.error ⟨"MAX_RETRIES_EXCEEDED", maxRetriesMsg mr e⟩, mr + 1 - a,
         (List.range (mr - a)).map (fun j => rd * (a + j + 1))) := by
  intro f
  induction f with
  | zero =>
    intro a ha hf
    have haa : a = mr := by omega
    subst haa
    obtain ⟨e, he, hnr⟩ := hfail a le_rfl
    refine ⟨e, he, ?_⟩
    rw [retryLoop, he]
    simp [hnr]
  | succ f ih =>
    intro a ha hf
    by_cases hma : mr ≤ a
    · have haa : a = mr := by omega
      subst haa
      obtain ⟨e, he, hnr⟩ := hfail a le_rfl
      refine ⟨e, he, ?_⟩
      rw [retryLoop, he]
      simp [hnr]
    · obtain ⟨ea, hea, hnra⟩ := hfail a ha
      obtain ⟨e, he, hrec⟩ := ih (a + 1) (by omega) (by omega)
      refine ⟨e, he, ?_⟩
      rw [retryLoop, hea]
      simp only [hnra, hma, if_false, Bool.false_eq_true, if_neg]
      rw [hrec]
      refine Prod.ext rfl (Prod.ext ?_ ?_)
      · simp; omega
      · simp only
        obtain ⟨k, hk⟩ : ∃ k, mr - a = k + 1 := ⟨mr - a - 1, by omega⟩
        rw [hk, show mr - (a + 1) = k by omega]
        simp only [List.range_succ_eq_map, List.map_cons, List.map_map]
        congr 1
        apply List.map_congr_left
        intro j hj
        simp only [Function.comp_apply, Nat.succ_eq_add_one]
        ring

end LocalStorageManager

theorem C5_retry_policy :
    (LocalStorageManager.maxRetries = LocalStorageManager.STORAGE_RETRY_ATTEMPTS ∧
     LocalStorageManager.STORAGE_RETRY_ATTEMPTS = 3) ∧
    (∀ (α : Type) (op : Nat → Except StorageErr α) (rd mr : Nat),
      1 ≤ (LocalStorageManager.executeWithRetry op rd mr).2.1 ∧
      (LocalStorageManager.executeWithRetry op rd mr).2.1 ≤ mr + 1 ∧
      (LocalStorageManager.executeWithRetry op rd mr).2.2 =
        (List.range ((LocalStorageManager.executeWithRetry op rd mr).2.1 - 1)).map
          (fun j => rd * (j + 1))) ∧
    (∀ (α : Type) (op : Nat → Except StorageErr α) (rd mr a : Nat)
        (e : StorageErr),
      op a = .error e → LocalStorageManager.nonRetriable e = true →
      LocalStorageManager.retryLoop op rd mr a = (.error e, 1, [])) ∧
    (∀ (α : Type) (op : Nat → Except StorageErr α) (rd mr : Nat),
      (∀ i, i ≤ mr →
        ∃ e, op i = .error e ∧ LocalStorageManager.nonRetriable e = false) →
      ∃ e, op mr = .error e ∧
        LocalStorageManager.executeWithRetry op rd mr =
          (.error ⟨"MAX_RETRIES_EXCEEDED", LocalStorageManager.maxRetriesMsg mr e⟩,
           mr + 1, (List.range mr).map (fun j => rd * (j + 1)))) := by
  refine ⟨⟨rfl, rfl⟩, ?_, ?_, ?_⟩
  · intro α op rd mr
    simp only [LocalStorageManager.executeWithRetry]
    obtain ⟨h1, h2, h3⟩ :=
      LocalStorageManager.retryLoop_bound_delays op rd mr mr 0 (Nat.zero_le mr)
        (by omega)
    refine ⟨h1, by omega, ?_⟩
    rw [h3]
    apply List.map_congr_left
    intro j hj
    ring
  · intro α op rd mr a e hop hnr
    rw [LocalStorageManager.retryLoop, hop]
    simp [hnr]
  · intro α op rd mr hfail
    obtain ⟨e, he, hloop⟩ :=
      LocalStorageManager.retryLoop_all_fail op rd mr hfail mr 0 (Nat.zero_le mr)
        (by omega)
    refine ⟨e, he, ?_⟩
    simp only [LocalStorageManager.executeWithRetry]
    rw [hloop]
    refine Prod.ext rfl (Prod.ext (by simp) ?_)
    simp only
    apply List.map_congr_left
    intro j hj
    ring

theorem C5_retry_policy_witness :
    LocalStorageManager.retryLoop
        (fun _ => (.error ⟨"DATA_CORRUPTION", "bad"⟩ : Except StorageErr Nat))
        1000 3 0 =
      (.error ⟨"DATA_CORRUPTION", "bad"⟩, 1, []) ∧
    (∃ e, (fun _ => (.error ⟨"READ_ERROR", "io"⟩ : Except StorageErr Nat)) 3 =
        .error e ∧
      LocalStorageManager.executeWithRetry
          (fun _ => (.error ⟨"READ_ERROR", "io"⟩ : Except StorageErr Nat))
          1000 3 =
        (.error ⟨"MAX_RETRIES_EXCEEDED", LocalStorageManager.maxRetriesMsg 3 e⟩,
         4, (List.range 3).map (fun j => 1000 * (j + 1)))) :=
  ⟨C5_retry_policy.2.2.1 Nat _ 1000 3 0 _ rfl rfl,
   C5_retry_policy.2.2.2 Nat _ 1000 3
     (fun _ _ => ⟨⟨"READ_ERROR", "io"⟩, rfl, rfl⟩)⟩

/-! ### C6: data migration order and failure behavior -/

/-- A logging migration used to observe application order: version `v`,
appending `v` to the data log when run. -/
def appendMig (v : Nat) : LocalStorageManager.DataMigration (List Nat) :=
  ⟨v, fun l => .ok (l ++ [v])⟩

/-- C6 counterexample: with the stored version absent (treated as 0) and
the migration list `[version 2, version 1]`, `migrateData` applies the
migrations in **list order** — the data log ends as `[2, 1]`, not the
ascending `[1, 2]` — and leaves the stored version at 1, not at 2 as the
ascending-order reading of the claim requires. -/
theorem C6_counterexample :
    (LocalStorageManager.migrateData [appendMig 2, appendMig 1]
        ⟨none, ([] : List Nat)⟩).2 =
      ⟨some 1, [2, 1]⟩ ∧
    ([2, 1] : List Nat) ≠ [1, 2] ∧ (some 1 : Option Nat) ≠ some 2 := by
  refine ⟨rfl, by decide, by decide⟩

/-- Helper: the loop applies exactly the migrations of the list whose
version exceeds the fixed `v0`, in list order. -/
theorem migrateGo_eq_applySteps {D : Type} (v0 : Nat)
    (ms : List (LocalStorageManager.DataMigration D)) :
    ∀ st, LocalStorageManager.migrateGo v0 ms st =
      LocalStorageManager.migrateDataListOrder.applySteps
        (ms.filter (fun m => decide (v0 < m.version))) st := by
  induction ms with
  | nil => intro st; rfl
  | cons m rest ih =>
    intro st
    by_cases hv : v0 < m.version
    · simp only [LocalStorageManager.migrateGo, hv, if_true, List.filter_cons,
        decide_eq_true_eq, decide_True]
      cases hmig : m.migrate st.data with
      | error u =>
          simp [LocalStorageManager.migrateDataListOrder.applySteps, hmig]
      | ok d2 =>
          simp only [LocalStorageManager.migrateDataListOrder.applySteps, hmig]
          exact ih _
    · have hd : (decide (v0 < m.version)) = false := by simp [hv]
      simp only [LocalStorageManager.migrateGo, hv, if_false, List.filter_cons,
        hd, Bool.false_eq_true]
      exact ih st

/-- C6 amended: `migrateData` applies exactly those migrations whose
version exceeds the initially stored version (0 when absent), **in the
order they appear in the given list** (the source neither sorts the list
nor refreshes the version read inside the loop), persisting the
transformed dataset and the migration version after each step; when a
migration fails, no later migration runs and the store — data and version
marker — stays at the last successful step. -/
theorem C6_migration_list_order {D : Type}
    (migrations : List (LocalStorageManager.DataMigration D))
    (st : LocalStorageManager.MigStore D) :
    LocalStorageManager.migrateData migrations st =
      LocalStorageManager.migrateDataListOrder migrations st := by
  rw [LocalStorageManager.migrateData, LocalStorageManager.migrateDataListOrder]
  exact migrateGo_eq_applySteps (st.version.getD 0) migrations st


/-! ### C10: getMultiple maps undecodable entries to null -/

/-- Association lookup over a key-indexed map of a key list. -/
theorem lookup_map_self {α : Type} (f : String → Option α) :
    ∀ (keys : List String) (k : String), k ∈ keys →
      (keys.map (fun k2 => (k2, f k2))).lookup k = some (f k) := by
  intro keys
  induction keys with
  | nil => intro k h; cases h
  | cons a rest ih =>
    intro k hk
    by_cases hak : k = a
    · subst hak
      simp [List.lookup]
    · have hb : (k == a) = false := by simp [hak]
      simp only [List.map_cons, List.lookup, hb]
      rcases List.mem_cons.mp hk with h | h
      · exact absurd h hak
      · exact ih k h

/-- A present cell means the key is among the stored keys. -/
theorem mem_getAllKeys_of_cell {α : Type} (s : Store α) (k : String)
    (r : RawVal α) (h : s.cell k = some r) :
    k ∈ LocalStorageManager.getAllKeys s := by
  unfold Store.cell at h
  cases hf : s.find? (fun p => p.1 == k) with
  | none => rw [hf] at h; cases h
  | some p =>
    have hp : (p.1 == k) = true :=
      List.find?_some (p := fun q => q.1 == k) (l := s) hf
    have hmem : p ∈ s :=
      List.mem_of_find?_eq_some (p := fun q => q.1 == k) (l := s) hf
    have : p.1 = k := by simpa using hp
    subst this
    exact List.mem_map_of_mem (·.1) hmem

/-- The per-key decode used by `getMultiple`: parse failures become
`null`, absent keys stay `null`, decodable cells give their value. -/
def multiDecode {α : Type} (s : Store α) (k : String) : Option α :=
  match s.cell k with
  | none => none
  | some .corrupt => none
  | some (.good v) => some v

/-- C10: `getMultiple` never raises a corruption error and never deletes a
key — the store is returned unchanged and every queried key is present in
the result, with undecodable cells mapped to `null` — unlike `get`, which
deletes the key and raises DATA_CORRUPTION; consequently `createBackup`
(which reads through `getAllKeys` + `getMultiple`) records `null` for
undecodable entries instead of failing. -/
theorem C10_getMultiple_lenient :
    (∀ (α : Type) (s : Store α) (keys : List String),
      (LocalStorageManager.getMultiple s keys).2 = s ∧
      ∀ k, k ∈ keys →
        (LocalStorageManager.getMultiple s keys).1.lookup k =
          some (multiDecode s k)) ∧
    (∀ (α : Type) (s : Store α) (keys : List String) (k : String),
      k ∈ keys → s.cell k = some RawVal.corrupt →
      (LocalStorageManager.getMultiple s keys).1.lookup k = some none) ∧
    (∀ (α : Type) (s : Store α) (k : String),
      s.cell k = some RawVal.corrupt →
      errCode (LocalStorageManager.get s k).1 = some "DATA_CORRUPTION" ∧
      (LocalStorageManager.get s k).2.cell k = none) ∧
    (∀ (α : Type) (s : Store α) (ts : String),
      (LocalStorageManager.createBackup s ts).2 = s ∧
      (LocalStorageManager.createBackup s ts).1.data =
        (LocalStorageManager.getMultiple s
          (LocalStorageManager.getAllKeys s)).1 ∧
      ∀ k, s.cell k = some RawVal.corrupt →
        (LocalStorageManager.createBackup s ts).1.data.lookup k =
          some none) := by
  have hmulti : ∀ (α : Type) (s : Store α) (keys : List String) (k : String),
      k ∈ keys →
      (LocalStorageManager.getMultiple s keys).1.lookup k =
        some (multiDecode s k) := by
    intro α s keys k hk
    exact lookup_map_self (multiDecode s) keys k hk
  refine ⟨?_, ?_, ?_, ?_⟩
  · intro α s keys
    exact ⟨rfl, fun k hk => hmulti α s keys k hk⟩
  · intro α s keys k hk hc
    rw [hmulti α s keys k hk]
    unfold multiDecode
    rw [hc]
  · intro α s k hc
    constructor
    · simp [LocalStorageManager.get, hc, errCode]
    · simp only [LocalStorageManager.get, hc]
      exact Store.cell_eraseKey s k
  · intro α s ts
    refine ⟨rfl, rfl, ?_⟩
    intro k hc
    have hk : k ∈ LocalStorageManager.getAllKeys s :=
      mem_getAllKeys_of_cell s k RawVal.corrupt hc
    have := hmulti α s (LocalStorageManager.getAllKeys s) k hk
    rw [show (LocalStorageManager.createBackup s ts).1.data =
      (LocalStorageManager.getMultiple s
        (LocalStorageManager.getAllKeys s)).1 from rfl]
    rw [this]
    unfold multiDecode
    rw [hc]

/-- A store with one healthy and one corrupt cell. -/
def mixedStore : Store Nat := [("a", RawVal.good 5), ("b", RawVal.corrupt)]

/-- C10 witness: the theorem applied to the two-cell store with key `b`
corrupt. -/
theorem C10_getMultiple_lenient_witness :
    ((LocalStorageManager.getMultiple mixedStore ["a", "b"]).2 = mixedStore ∧
      ∀ k, k ∈ ["a", "b"] →
        (LocalStorageManager.getMultiple mixedStore ["a", "b"]).1.lookup k =
          some (multiDecode mixedStore k)) ∧
    (LocalStorageManager.getMultiple mixedStore ["a", "b"]).1.lookup "b" =
      some none ∧
    (errCode (LocalStorageManager.get mixedStore "b").1 =
        some "DATA_CORRUPTION" ∧
      (LocalStorageManager.get mixedStore "b").2.cell "b" = none) ∧
    (LocalStorageManager.createBackup mixedStore "t").1.data.lookup "b" =
      some none :=
  ⟨C10_getMultiple_lenient.1 Nat mixedStore ["a", "b"],
   C10_getMultiple_lenient.2.1 Nat mixedStore ["a", "b"] "b" (by decide) rfl,
   C10_getMultiple_lenient.2.2.1 Nat mixedStore "b" rfl,
   (C10_getMultiple_lenient.2.2.2 Nat mixedStore "t").2.2 "b" rfl⟩


/-! ### C9: the averageRating statistic -/

/-- C9 counterexample: over the watched items `[voteAverage 8, voteAverage
0]` the code reports 8 (the zero-vote item is filtered out as falsy),
while the arithmetic mean of `voteAverage` over the watched items is 4. -/
theorem C9_counterexample :
    (StatisticsManager.calculateStatistics trivDateEnv
        [watchedOf sampleShow, watchedOf sampleUnrated] [] []).averageRating ≠
      ([watchedOf sampleShow, watchedOf sampleUnrated].map
          (fun i => i.mediaItem.voteAverage)).sum / 2 := by
  norm_num [StatisticsManager.calculateStatistics,
    StatisticsManager.calculateAverageRating, roundTo1, round_eq, watchedOf,
    sampleShow, sampleUnrated, sampleMovie, createCollectionItem, List.filter]

/-- C9 amended: the `averageRating` field of `calculateStatistics` equals
`calculateAverageRating` of the watched items alone, which is the
arithmetic mean of `mediaItem.voteAverage` over the watched items **with
nonzero voteAverage**, rounded to one decimal (`toFixed(1)`), and 0 when
no such item exists; it is computed from the catalog `voteAverage` and is
invariant under any change that keeps `mediaItem` intact (in particular
under changes to the user rating). -/
theorem C9_average_rating :
    (∀ (env : DateEnv) (w wi ww : List CollectionItem),
      (StatisticsManager.calculateStatistics env w wi ww).averageRating =
        StatisticsManager.calculateAverageRating w) ∧
    (∀ w : List CollectionItem,
      w.filter (fun i => i.mediaItem.voteAverage ≠ 0) = [] →
      StatisticsManager.calculateAverageRating w = 0) ∧
    (∀ (w rated : List CollectionItem),
      rated = w.filter (fun i => i.mediaItem.voteAverage ≠ 0) →
      rated ≠ [] →
      StatisticsManager.calculateAverageRating w =
        roundTo1 ((rated.map (fun i => i.mediaItem.voteAverage)).sum /
          rated.length)) ∧
    (∀ (w : List CollectionItem) (f : CollectionItem → CollectionItem),
      (∀ i, (f i).mediaItem = i.mediaItem) →
      StatisticsManager.calculateAverageRating (w.map f) =
        StatisticsManager.calculateAverageRating w) := by
  refine ⟨fun env w wi ww => rfl, ?_, ?_, ?_⟩
  · intro w h
    simp only [StatisticsManager.calculateAverageRating, h]
    simp
  · intro w rated hr hne
    simp only [StatisticsManager.calculateAverageRating, ← hr]
    have hlen : rated.length ≠ 0 := by
      intro h0
      exact hne (List.length_eq_zero.mp h0)
    simp [hlen]
  · intro w f hf
    simp only [StatisticsManager.calculateAverageRating]
    rw [List.filter_map]
    have hp : ((fun i => decide (i.mediaItem.voteAverage ≠ 0)) ∘ f) =
        (fun i : CollectionItem => decide (i.mediaItem.voteAverage ≠ 0)) := by
      funext i
      simp only [Function.comp_apply, hf i]
    rw [hp]
    simp only [List.length_map, List.map_map]
    have hm : ((fun i => i.mediaItem.voteAverage) ∘ f) =
        (fun i : CollectionItem => i.mediaItem.voteAverage) := by
      funext i
      simp only [Function.comp_apply, hf i]
    rw [hm]

/-- C9 witness: the amended theorem applied to concrete lists — the empty
filter case, a two-item average, and invariance under a user-rating
rewrite. -/
theorem C9_average_rating_witness :
    StatisticsManager.calculateAverageRating [watchedOf sampleUnrated] = 0 ∧
    StatisticsManager.calculateAverageRating
        [watchedOf sampleMovie, watchedOf sampleShow] =
      roundTo1
        (((([watchedOf sampleMovie, watchedOf sampleShow].filter
              (fun i => i.mediaItem.voteAverage ≠ 0)).map
            (fun i => i.mediaItem.voteAverage)).sum) /
          ([watchedOf sampleMovie, watchedOf sampleShow].filter
              (fun i => i.mediaItem.voteAverage ≠ 0)).length) ∧
    StatisticsManager.calculateAverageRating
        ([watchedOf sampleMovie].map
          (fun i => { i with userRating := some 3 })) =
      StatisticsManager.calculateAverageRating [watchedOf sampleMovie] :=
  ⟨C9_average_rating.2.1 [watchedOf sampleUnrated]
     (by norm_num [watchedOf, sampleUnrated, sampleMovie,
       createCollectionItem, List.filter]),
   C9_average_rating.2.2.1 [watchedOf sampleMovie, watchedOf sampleShow] _
     rfl
     (by norm_num [watchedOf, sampleMovie, sampleShow, createCollectionItem,
        List.filter]
         exact List.cons_ne_nil _ _),
   C9_average_rating.2.2.2 [watchedOf sampleMovie]
     (fun i => { i with userRating := some 3 }) (fun i => rfl)⟩

/-! ### C2: duplicate add -/

/-- A `find?` over a partition returns none exactly when no item carries
the media id. -/
theorem findCollectionItemByMediaId_eq_none (mid : Nat)
    (l : List CollectionItem) :
    findCollectionItemByMediaId mid l = none ↔
      ∀ i ∈ l, i.mediaItem.id ≠ mid := by
  simp [findCollectionItemByMediaId, List.find?_eq_none]

/-- `findItemByMediaId` misses exactly when the media id is absent from
all three partitions. -/
theorem findItemByMediaId_eq_none_iff (c : Collections) (mid : Nat) :
    DataManager.findItemByMediaId c mid = none ↔ mid ∉ c.mediaIds := by
  unfold DataManager.findItemByMediaId
  cases hw : findCollectionItemByMediaId mid c.watched with
  | some a =>
    have hw2 : c.watched.find? (fun i => i.mediaItem.id == mid) = some a :=
      hw
    have ha := List.find?_some hw2
    have hmem := List.mem_of_find?_eq_some hw2
    constructor
    · intro h
      simp [Option.orElse] at h
    · intro h
      exfalso
      apply h
      simp only [Collections.mediaIds, Collections.items, List.map_append,
        List.mem_append, List.mem_map]
      exact Or.inl (Or.inl ⟨a, hmem, by simpa using ha⟩)
  | none =>
    cases hg : findCollectionItemByMediaId mid c.watching with
    | some a =>
      have hg2 : c.watching.find? (fun i => i.mediaItem.id == mid) = some a :=
        hg
      have ha := List.find?_some hg2
      have hmem := List.mem_of_find?_eq_some hg2
      constructor
      · intro h
        simp [Option.orElse] at h
      · intro h
        exfalso
        apply h
        simp only [Collections.mediaIds, Collections.items, List.map_append,
          List.mem_append, List.mem_map]
        exact Or.inl (Or.inr ⟨a, hmem, by simpa using ha⟩)
    | none =>
      cases hf : findCollectionItemByMediaId mid c.will_watch with
      | some a =>
        have hf2 : c.will_watch.find? (fun i => i.mediaItem.id == mid) = some a :=
          hf
        have ha := List.find?_some hf2
        have hmem := List.mem_of_find?_eq_some hf2
        constructor
        · intro h
          simp [Option.orElse] at h
        · intro h
          exfalso
          apply h
          simp only [Collections.mediaIds, Collections.items, List.map_append,
            List.mem_append, List.mem_map]
          exact Or.inr ⟨a, hmem, by simpa using ha⟩
      | none =>
        constructor
        · intro _
          have h1 := (findCollectionItemByMediaId_eq_none mid c.watched).mp hw
          have h2 := (findCollectionItemByMediaId_eq_none mid c.watching).mp hg
          have h3 :=
            (findCollectionItemByMediaId_eq_none mid c.will_watch).mp hf
          simp only [Collections.mediaIds, Collections.items, List.map_append,
            List.mem_append, List.mem_map]
          rintro (( ⟨a, hm, he⟩ | ⟨a, hm, he⟩ ) | ⟨a, hm, he⟩ )
          · exact h1 a hm he
          · exact h2 a hm he
          · exact h3 a hm he
        · intro _
          simp [Option.orElse, hw, hg, hf]

/-- Appending an item to one partition permutes the item list by a cons. -/
theorem items_setPart_append (c : Collections) (st : CollectionStatus)
    (x : CollectionItem) :
    ((c.setPart st (c.part st ++ [x])).items).Perm (x :: c.items) := by
  cases st with
  | watched =>
    simp only [Collections.setPart, Collections.part, Collections.items]
    have h1 : c.watched ++ [x] ++ c.watching ++ c.will_watch
        = c.watched ++ x :: (c.watching ++ c.will_watch) := by simp
    have h2 : c.watched ++ c.watching ++ c.will_watch
        = c.watched ++ (c.watching ++ c.will_watch) := by simp
    rw [h1, h2]
    exact List.perm_middle
  | watching =>
    simp only [Collections.setPart, Collections.part, Collections.items]
    have h1 : c.watched ++ (c.watching ++ [x]) ++ c.will_watch
        = (c.watched ++ c.watching) ++ (x :: c.will_watch) := by simp
    rw [h1]
    exact List.perm_middle
  | will_watch =>
    simp only [Collections.setPart, Collections.part, Collections.items]
    have h1 : c.watched ++ c.watching ++ (c.will_watch ++ [x])
        = c.watched ++ c.watching ++ c.will_watch ++ [x] := by simp
    rw [h1]
    exact List.perm_append_singleton x _

/-- Media ids after a partition append: a cons permutation. -/
theorem mediaIds_setPart_append (c : Collections) (st : CollectionStatus)
    (x : CollectionItem) :
    ((c.setPart st (c.part st ++ [x])).mediaIds).Perm
      (x.mediaItem.id :: c.mediaIds) := by
  have h := (items_setPart_append c st x).map (fun i => i.mediaItem.id)
  simpa [Collections.mediaIds] using h

/-- C2 counterexample: the second `addItem` on the same media item fails
with surfaced error code ADD_ITEM_ERROR (the DUPLICATE_ITEM error thrown
inside is re-wrapped by the operation catch block), not DUPLICATE_ITEM. -/
theorem C2_counterexample :
    errCode (DataManager.addItem
        (DataManager.addItem DataManager.emptyCollections 0 0 sampleMovie
          .will_watch).2 1 1 sampleMovie .watched).1 ≠
      some "DUPLICATE_ITEM" ∧
    errCode (DataManager.addItem
        (DataManager.addItem DataManager.emptyCollections 0 0 sampleMovie
          .will_watch).2 1 1 sampleMovie .watched).1 =
      some "ADD_ITEM_ERROR" := by
  constructor
  · decide
  · decide

/-- C2 amended: after a successful `addItem(m, s)`, a second
`addItem(m, s2)` fails with an ADD_ITEM_ERROR wrapping the DUPLICATE_ITEM
error (its message embeds the inner "Media item already exists in
collection"), leaves the persisted record unchanged, and the three
partitions combined still contain exactly one item whose `mediaItem.id`
equals `m.id`. -/
theorem C2_duplicate_add (c c2 : Collections) (item : CollectionItem)
    (n1 t1 n2 t2 : Nat) (m : MediaItem) (st st2 : CollectionStatus)
    (h : DataManager.addItem c n1 t1 m st = (.ok item, c2)) :
    (DataManager.addItem c2 n2 t2 m st2).1 =
      .error ⟨"ADD_ITEM_ERROR",
        "Failed to add item to collection: StorageError: Media item already exists in collection"⟩ ∧
    (DataManager.addItem c2 n2 t2 m st2).2 = c2 ∧
    c2.mediaIds.count m.id = 1 := by
  unfold DataManager.addItem at h
  cases hfind : DataManager.findItemByMediaId c m.id with
  | some a =>
    rw [hfind] at h
    simp at h
  | none =>
    rw [hfind] at h
    simp only [Prod.mk.injEq] at h
    have hc2 : c2 = c.setPart st (c.part st ++ [createCollectionItem m st n1 t1]) :=
      h.2.symm
    have hnot : m.id ∉ c.mediaIds :=
      (findItemByMediaId_eq_none_iff c m.id).mp hfind
    have hperm : (c2.mediaIds).Perm (m.id :: c.mediaIds) := by
      rw [hc2]
      exact mediaIds_setPart_append c st (createCollectionItem m st n1 t1)
    have hcount : c2.mediaIds.count m.id = 1 := by
      rw [hperm.count_eq]
      rw [List.count_cons_self]
      rw [List.count_eq_zero.mpr hnot]
    have hmem : m.id ∈ c2.mediaIds := by
      rw [hperm.mem_iff]
      exact List.mem_cons_self m.id c.mediaIds
    have hfind2 : DataManager.findItemByMediaId c2 m.id ≠ none := by
      intro hn
      exact (findItemByMediaId_eq_none_iff c2 m.id).mp hn hmem
    cases hf2 : DataManager.findItemByMediaId c2 m.id with
    | none => exact absurd hf2 hfind2
    | some b =>
      refine ⟨?_, ?_, hcount⟩
      · simp [DataManager.addItem, hf2, StorageErr.interp]
      · simp [DataManager.addItem, hf2]

/-- C2 witness: the amended theorem applied to the empty record and the
sample movie. -/
theorem C2_duplicate_add_witness :
    (DataManager.addItem
        (DataManager.addItem DataManager.emptyCollections 0 0 sampleMovie
          .will_watch).2 1 1 sampleMovie .watched).1 =
      .error ⟨"ADD_ITEM_ERROR",
        "Failed to add item to collection: StorageError: Media item already exists in collection"⟩ ∧
    (DataManager.addItem
        (DataManager.addItem DataManager.emptyCollections 0 0 sampleMovie
          .will_watch).2 1 1 sampleMovie .watched).2 =
      (DataManager.addItem DataManager.emptyCollections 0 0 sampleMovie
        .will_watch).2 ∧
    ((DataManager.addItem DataManager.emptyCollections 0 0 sampleMovie
        .will_watch).2).mediaIds.count sampleMovie.id = 1 :=
  C2_duplicate_add DataManager.emptyCollections _ _ 0 0 1 1 sampleMovie
    .will_watch .watched rfl


/-! ### C8: profile creation validation -/

/-- `jsTrim` in terms of the Mathlib right-drop. -/
theorem jsTrim_data (s : String) :
    (jsTrim s).data = (s.data.dropWhile isJsSpace).rdropWhile isJsSpace := rfl

/-- Left-trimming is preserved by right-trimming: a list whose head does
not match keeps a non-matching head after dropping from the right. -/
theorem dropWhile_rdropWhile_of_self (p : Char → Bool) (u : List Char)
    (hu : u.dropWhile p = u) :
    (u.rdropWhile p).dropWhile p = u.rdropWhile p := by
  cases u with
  | nil => simp
  | cons a t =>
    have hpa : p a = false := by
      by_contra hpa
      rw [Bool.not_eq_false] at hpa
      rw [List.dropWhile_cons_of_pos hpa] at hu
      have hlen := congrArg List.length hu
      have hle : (t.dropWhile p).length ≤ t.length :=
        (List.dropWhile_suffix p).length_le
      simp only [List.length_cons] at hlen
      omega
    obtain ⟨rest, hq⟩ := List.rdropWhile_prefix p (a :: t)
    cases hr : List.rdropWhile p (a :: t) with
    | nil => simp
    | cons b rb =>
      rw [hr] at hq
      have hcons : b :: (rb ++ rest) = a :: t := by simpa using hq
      injection hcons with hba hrest
      subst hba
      rw [List.dropWhile_cons_of_neg (by simp [hpa])]

/-- JS `trim` is idempotent. -/
theorem jsTrim_idem (s : String) : jsTrim (jsTrim s) = jsTrim s := by
  apply String.ext
  simp only [jsTrim_data]
  rw [show ((s.data.dropWhile isJsSpace).rdropWhile isJsSpace).dropWhile
        isJsSpace =
      (s.data.dropWhile isJsSpace).rdropWhile isJsSpace from
    dropWhile_rdropWhile_of_self isJsSpace _
      (List.dropWhile_idempotent isJsSpace s.data)]
  exact List.rdropWhile_idempotent isJsSpace _

/-- A string is empty exactly when its length is zero. -/
theorem string_length_eq_zero_iff (s : String) : s.length = 0 ↔ s = "" := by
  constructor
  · intro h
    apply String.ext
    have : s.data.length = 0 := h
    simpa using List.length_eq_zero.mp this
  · intro h
    subst h
    rfl


/-- C8 counterexample: an invalid profile creation (empty name) surfaces
error code SAVE_PROFILE_ERROR — the INVALID_PROFILE_DATA error thrown by
the validation is re-wrapped by the `saveUserProfile` catch block — not
INVALID_PROFILE_DATA. -/
theorem C8_counterexample :
    errCode ((DataManager.createUserProfile "" 25 [878] "uid-1"
        "2024-01-01T00:00:00.000Z").map (fun _ => ())) ≠
      some "INVALID_PROFILE_DATA" ∧
    errCode ((DataManager.createUserProfile "" 25 [878] "uid-1"
        "2024-01-01T00:00:00.000Z").map (fun _ => ())) =
      some "SAVE_PROFILE_ERROR" := by
  constructor
  · decide
  · decide

/-- C8 amended: `createUserProfile` succeeds exactly for trimmed name
lengths in [1, 50], ages in [1, 120] and a nonempty genre list (so it
succeeds at lengths 1 and 50 and ages 1 and 120, and fails at lengths 0
and 51, ages 0 and 121, and an empty genre list); on failure the surfaced
error has code SAVE_PROFILE_ERROR and wraps the INVALID_PROFILE_DATA
message carrying **all** violated rules joined together; with several
rules violated at once, all of them are collected rather than only the
first. -/
theorem C8_profile_validation (name : String) (age : ℚ)
    (genres : List Nat) (uid now : String) (hu : uid ≠ "") (hn : now ≠ "") :
    ((∃ p, DataManager.createUserProfile name age genres uid now = .ok p) ↔
      (1 ≤ (jsTrim name).length ∧ (jsTrim name).length ≤ 50 ∧
       1 ≤ age ∧ age ≤ 120 ∧ genres ≠ [])) ∧
    (∀ p, DataManager.createUserProfile name age genres uid now = .ok p →
      p = ⟨uid, jsTrim name, age, genres, now, now⟩) ∧
    (∀ e, DataManager.createUserProfile name age genres uid now = .error e →
      e.code = "SAVE_PROFILE_ERROR" ∧
      e.message =
        "Failed to save user profile: StorageError: Invalid profile data: "
          ++ String.intercalate ", "
            (DataManager.validateUserProfile
              ⟨uid, jsTrim name, age, genres, now, now⟩).errors) ∧
    (jsTrim name = "" → age < 1 → genres = [] →
      (DataManager.validateUserProfile
          ⟨uid, jsTrim name, age, genres, now, now⟩).errors =
        ["Name is required", "Age must be between 1 and 120",
         "At least one preferred genre is required"]) := by
  have hemp : ((jsTrim name) = "") ↔ (jsTrim name).length = 0 :=
    (string_length_eq_zero_iff (jsTrim name)).symm
  have herrs : (DataManager.validateUserProfile
      ⟨uid, jsTrim name, age, genres, now, now⟩).errors =
      (if (jsTrim name).length < 1 then ["Name is required"] else []) ++
      (if 50 < (jsTrim name).length then
        ["Name cannot exceed 50 characters"] else []) ++
      (if age < 1 ∨ 120 < age then ["Age must be between 1 and 120"]
        else []) ++
      (if genres = [] then ["At least one preferred genre is required"]
        else []) := by
    have h1iff : ((jsTrim name) = "" ∨ (jsTrim (jsTrim name)).length < 1) ↔
        (jsTrim name).length < 1 := by
      rw [jsTrim_idem, hemp]
      omega
    have h2iff : ((jsTrim name) ≠ "" ∧ 50 < (jsTrim name).length) ↔
        50 < (jsTrim name).length := by
      constructor
      · exact fun h => h.2
      · intro h
        refine ⟨?_, h⟩
        intro he
        rw [hemp] at he
        omega
    have h3iff : (age = 0 ∨ age < 1 ∨ 120 < age) ↔
        (age < 1 ∨ 120 < age) := by
      constructor
      · rintro (h | h | h)
        · left; rw [h]; norm_num
        · exact Or.inl h
        · exact Or.inr h
      · rintro (h | h)
        · exact Or.inr (Or.inl h)
        · exact Or.inr (Or.inr h)
    have h5 : ¬(uid = "" ∨ now = "" ∨ now = "") := by
      simp [hu, hn]
    simp only [DataManager.validateUserProfile, h1iff, h2iff, h3iff, h5,
      if_false, List.append_nil, if_neg, not_false_iff]
  have hvalid : (DataManager.validateUserProfile
      ⟨uid, jsTrim name, age, genres, now, now⟩).isValid = true ↔
      (1 ≤ (jsTrim name).length ∧ (jsTrim name).length ≤ 50 ∧
       1 ≤ age ∧ age ≤ 120 ∧ genres ≠ []) := by
    have hiv : (DataManager.validateUserProfile
        ⟨uid, jsTrim name, age, genres, now, now⟩).isValid =
        (DataManager.validateUserProfile
          ⟨uid, jsTrim name, age, genres, now, now⟩).errors.isEmpty := by
      simp [DataManager.validateUserProfile]
    have hsing : ∀ (c : Prop) [Decidable c] (x : String),
        ((if c then [x] else []) = ([] : List String)) ↔ ¬ c := by
      intro c _ x
      by_cases h : c <;> simp [h]
    rw [hiv, herrs, List.isEmpty_iff]
    simp only [List.append_eq_nil, hsing]
    constructor
    · rintro ⟨⟨⟨h1, h2⟩, h3⟩, h4⟩
      push_neg at h3
      exact ⟨by omega, by omega, h3.1, h3.2, h4⟩
    · rintro ⟨h1, h2, h3, h4, h5⟩
      refine ⟨⟨⟨by omega, by omega⟩, ?_⟩, h5⟩
      push_neg
      exact ⟨h3, h4⟩
  have hred : ∀ b, (DataManager.validateUserProfile
      ⟨uid, jsTrim name, age, genres, now, now⟩).isValid = b →
      DataManager.createUserProfile name age genres uid now =
        (if b then
          .ok ⟨uid, jsTrim name, age, genres, now, now⟩
         else
          .error ⟨"SAVE_PROFILE_ERROR",
            "Failed to save user profile: StorageError: Invalid profile data: "
              ++ String.intercalate ", "
                (DataManager.validateUserProfile
                  ⟨uid, jsTrim name, age, genres, now, now⟩).errors⟩) := by
    intro b hb
    cases b with
    | true =>
      simp [DataManager.createUserProfile, DataManager.saveUserProfile, hb,
        StorageErr.interp]
    | false =>
      simp only [DataManager.createUserProfile, DataManager.saveUserProfile,
        hb, StorageErr.interp, if_false, Bool.false_eq_true]
      rw [← String.append_assoc, ← String.append_assoc]
      rfl
  refine ⟨?_, ?_, ?_, ?_⟩
  · constructor
    · rintro ⟨p, hp⟩
      cases hv : (DataManager.validateUserProfile
          ⟨uid, jsTrim name, age, genres, now, now⟩).isValid with
      | true => exact hvalid.mp hv
      | false =>
        rw [hred false hv] at hp
        simp at hp
    · intro hcond
      refine ⟨⟨uid, jsTrim name, age, genres, now, now⟩, ?_⟩
      rw [hred true (hvalid.mpr hcond)]
      simp
  · intro p hp
    cases hv : (DataManager.validateUserProfile
        ⟨uid, jsTrim name, age, genres, now, now⟩).isValid with
    | true =>
      rw [hred true hv] at hp
      simp at hp
      exact hp.symm
    | false =>
      rw [hred false hv] at hp
      simp at hp
  · intro e he
    cases hv : (DataManager.validateUserProfile
        ⟨uid, jsTrim name, age, genres, now, now⟩).isValid with
    | true =>
      rw [hred true hv] at he
      simp at he
    | false =>
      rw [hred false hv] at he
      simp at he
      rw [← he]
      exact ⟨rfl, rfl⟩
  · intro hname hage hgen
    rw [herrs]
    have h0 : (jsTrim name).length = 0 := hemp.mp hname
    rw [if_pos (by omega), if_neg (by omega), if_pos (Or.inl hage),
      if_pos hgen]
    rfl

/-- C8 witness: the amended theorem applied to a valid input
(name trimming to length 3, age 25, one genre) and to a triply invalid
input (empty name, age 0, no genres) whose three violations are all
reported. -/
theorem C8_profile_validation_witness :
    (∃ p, DataManager.createUserProfile " Ann " 25 [878] "u1" "t1" = .ok p) ∧
    (DataManager.validateUserProfile
        ⟨"u1", jsTrim "", 0, [], "t1", "t1"⟩).errors =
      ["Name is required", "Age must be between 1 and 120",
       "At least one preferred genre is required"] :=
  ⟨(C8_profile_validation " Ann " 25 [878] "u1" "t1" (by decide)
      (by decide)).1.mpr
      ⟨by decide, by decide, by norm_num, by norm_num, by decide⟩,
   (C8_profile_validation "" 0 [] "u1" "t1" (by decide) (by decide)).2.2.2
     (by decide) (by norm_num) rfl⟩


/-! ### Supporting lemmas for item lookup and extraction -/

theorem part_setPart_self (c : Collections) (st : CollectionStatus)
    (l : List CollectionItem) : (c.setPart st l).part st = l := by
  cases st <;> rfl

theorem part_setPart_ne (c : Collections) (st q : CollectionStatus)
    (l : List CollectionItem) (h : q ≠ st) :
    (c.setPart st l).part q = c.part q := by
  cases st <;> cases q <;> first | rfl | exact absurd rfl h

theorem extractById_of_not_mem (itemId : Nat) (l : List CollectionItem)
    (h : ∀ j ∈ l, j.id ≠ itemId) :
    DataManager.extractById itemId l = (l, none) := by
  induction l with
  | nil => rfl
  | cons a t ih =>
    have ha : a.id ≠ itemId := h a (List.mem_cons_self a t)
    have ht := ih (fun j hj => h j (List.mem_cons_of_mem a hj))
    simp [DataManager.extractById, ha, ht]

theorem extractById_of_mem (itemId : Nat) (l : List CollectionItem)
    (i : CollectionItem) (hn : (l.map (·.id)).Nodup) (hm : i ∈ l)
    (hid : i.id = itemId) :
    (DataManager.extractById itemId l).2 = some i ∧
    l.Perm (i :: (DataManager.extractById itemId l).1) ∧
    ∀ j ∈ (DataManager.extractById itemId l).1, j.id ≠ itemId := by
  induction l with
  | nil => cases hm
  | cons a t ih =>
    rw [List.map_cons, List.nodup_cons] at hn
    by_cases ha : a.id = itemId
    · have hai : a = i := by
        rcases List.mem_cons.mp hm with h | h
        · exact h.symm
        · exfalso
          apply hn.1
          rw [ha, ← hid]
          exact List.mem_map_of_mem (·.id) h
      subst hai
      refine ⟨by simp [DataManager.extractById, ha], ?_, ?_⟩
      · simp [DataManager.extractById, ha]
      · intro j hj
        simp only [DataManager.extractById, ha, if_pos] at hj
        intro hjid
        apply hn.1
        rw [ha, ← hjid]
        exact List.mem_map_of_mem (·.id) hj
    · have hit : i ∈ t := by
        rcases List.mem_cons.mp hm with h | h
        · exact absurd (h ▸ hid) ha
        · exact h
      obtain ⟨h1, h2, h3⟩ := ih hn.2 hit
      refine ⟨?_, ?_, ?_⟩
      · simp [DataManager.extractById, ha, h1]
      · have hcons :
            DataManager.extractById itemId (a :: t) =
              (a :: (DataManager.extractById itemId t).1,
               (DataManager.extractById itemId t).2) := by
          simp [DataManager.extractById, ha]
        rw [hcons]
        exact (h2.cons a).trans
          (List.Perm.swap i a (DataManager.extractById itemId t).1)
      · intro j hj
        have hcons :
            (DataManager.extractById itemId (a :: t)).1 =
              a :: (DataManager.extractById itemId t).1 := by
          simp [DataManager.extractById, ha]
        rw [hcons] at hj
        rcases List.mem_cons.mp hj with h | h
        · exact h ▸ ha
        · exact h3 j h


theorem itemIds_parts (c : Collections) (hn : c.itemIds.Nodup) :
    ((c.watched.map (·.id)).Nodup ∧ (c.watching.map (·.id)).Nodup ∧
     (c.will_watch.map (·.id)).Nodup) ∧
    (∀ x ∈ c.watched, ∀ y ∈ c.watching, x.id ≠ y.id) ∧
    (∀ x ∈ c.watched, ∀ y ∈ c.will_watch, x.id ≠ y.id) ∧
    (∀ x ∈ c.watching, ∀ y ∈ c.will_watch, x.id ≠ y.id) := by
  simp only [Collections.itemIds, Collections.items, List.map_append] at hn
  rw [List.nodup_append, List.nodup_append] at hn
  obtain ⟨⟨h1, h2, h12⟩, h3, h123⟩ := hn
  refine ⟨⟨h1, h2, h3⟩, ?_, ?_, ?_⟩
  · intro x hx y hy he
    exact h12 (List.mem_map_of_mem (·.id) hx)
      (he ▸ List.mem_map_of_mem (·.id) hy)
  · intro x hx y hy he
    exact h123
      (List.mem_append_left _ (List.mem_map_of_mem (·.id) hx))
      (he ▸ List.mem_map_of_mem (·.id) hy)
  · intro x hx y hy he
    exact h123
      (List.mem_append_right _ (List.mem_map_of_mem (·.id) hx))
      (he ▸ List.mem_map_of_mem (·.id) hy)

/-- The common shape of a successful `updateItemStatus` once the
extraction outcome of each partition is known. -/
theorem updateItemStatus_core (c : Collections) (now itemId : Nat)
    (newStatus : CollectionStatus) (i : CollectionItem)
    (hw1 : ∀ j ∈ (DataManager.extractById itemId c.watched).1, j.id ≠ itemId)
    (hg1 : ∀ j ∈ (DataManager.extractById itemId c.watching).1, j.id ≠ itemId)
    (hf1 : ∀ j ∈ (DataManager.extractById itemId c.will_watch).1,
      j.id ≠ itemId)
    (hsome :
      ((DataManager.extractById itemId c.will_watch).2.orElse fun _ =>
        ((DataManager.extractById itemId c.watching).2.orElse fun _ =>
          (DataManager.extractById itemId c.watched).2)) = some i) :
    ∃ u c2,
      DataManager.updateItemStatus c now itemId newStatus = (.ok u, c2) ∧
      u.id = i.id ∧ u.status = newStatus ∧ u.addedAt = i.addedAt ∧
      u.mediaItem = i.mediaItem ∧
      (newStatus = .watched → i.watchedDate = none →
        u.watchedDate = some now) ∧
      (newStatus = .watched → ∀ d, i.watchedDate = some d →
        u.watchedDate = some d) ∧
      (newStatus ≠ .watched → u.watchedDate = none) ∧
      (newStatus = .watched → i.watchedDate = none → i.addedAt ≤ now →
        ∃ d, u.watchedDate = some d ∧ i.addedAt ≤ d) ∧
      u ∈ c2.part newStatus ∧
      (∀ q, q ≠ newStatus → ∀ j ∈ c2.part q, j.id ≠ itemId) := by
  refine ⟨updateCollectionItemStatus i newStatus now,
    (⟨(DataManager.extractById itemId c.watched).1,
      (DataManager.extractById itemId c.watching).1,
      (DataManager.extractById itemId c.will_watch).1⟩ :
        Collections).setPart newStatus
      ((⟨(DataManager.extractById itemId c.watched).1,
        (DataManager.extractById itemId c.watching).1,
        (DataManager.extractById itemId c.will_watch).1⟩ :
          Collections).part newStatus ++
        [updateCollectionItemStatus i newStatus now]),
    ?_, rfl, rfl, rfl, rfl, ?_, ?_, ?_, ?_, ?_, ?_⟩
  · simp only [DataManager.updateItemStatus, hsome]
  · intro h1 h2
    subst h1
    simp [updateCollectionItemStatus, h2]
  · intro h1 d hd
    subst h1
    simp [updateCollectionItemStatus, hd]
  · intro h1
    simp [updateCollectionItemStatus, h1]
  · intro h1 h2 h3
    subst h1
    refine ⟨now, ?_, h3⟩
    simp [updateCollectionItemStatus, h2]
  · rw [part_setPart_self]
    exact List.mem_append_right _ (by simp)
  · intro q hq j hj
    rw [part_setPart_ne _ _ _ _ hq] at hj
    cases q with
    | watched => exact hw1 j hj
    | watching => exact hg1 j hj
    | will_watch => exact hf1 j hj

/-- C4: for an item present in the collections (ids distinct),
`updateItemStatus` succeeds and the returned item has `watchedDate` set
to the current instant (which is ≥ `addedAt` whenever the clock did not
run backwards) when moving to `watched` with no date recorded, keeps the
recorded date when moving to `watched` with one already present, and
clears it when moving to any other status; afterwards the item lives
only in the partition of the new status. -/
theorem C4_update_item_status (c : Collections) (now itemId : Nat)
    (newStatus : CollectionStatus) (i : CollectionItem)
    (p : CollectionStatus) (hn : c.itemIds.Nodup) (hi : i ∈ c.part p)
    (hid : i.id = itemId) :
    ∃ u c2,
      DataManager.updateItemStatus c now itemId newStatus = (.ok u, c2) ∧
      u.id = i.id ∧ u.status = newStatus ∧ u.addedAt = i.addedAt ∧
      u.mediaItem = i.mediaItem ∧
      (newStatus = .watched → i.watchedDate = none →
        u.watchedDate = some now) ∧
      (newStatus = .watched → ∀ d, i.watchedDate = some d →
        u.watchedDate = some d) ∧
      (newStatus ≠ .watched → u.watchedDate = none) ∧
      (newStatus = .watched → i.watchedDate = none → i.addedAt ≤ now →
        ∃ d, u.watchedDate = some d ∧ i.addedAt ≤ d) ∧
      u ∈ c2.part newStatus ∧
      (∀ q, q ≠ newStatus → ∀ j ∈ c2.part q, j.id ≠ itemId) := by
  obtain ⟨⟨hnw, hng, hnf⟩, hwg, hwf, hgf⟩ := itemIds_parts c hn
  cases p with
  | watched =>
    obtain ⟨he2, hperm, hres⟩ := extractById_of_mem itemId c.watched i hnw hi
      hid
    have hgno : DataManager.extractById itemId c.watching =
        (c.watching, none) :=
      extractById_of_not_mem itemId c.watching
        (fun j hj hjid => hwg i hi j hj (hid.trans hjid.symm))
    have hfno : DataManager.extractById itemId c.will_watch =
        (c.will_watch, none) :=
      extractById_of_not_mem itemId c.will_watch
        (fun j hj hjid => hwf i hi j hj (hid.trans hjid.symm))
    refine updateItemStatus_core c now itemId newStatus i hres ?_ ?_ ?_
    · rw [hgno]
      exact fun j hj hjid => hwg i hi j hj (hid.trans hjid.symm)
    · rw [hfno]
      exact fun j hj hjid => hwf i hi j hj (hid.trans hjid.symm)
    · rw [hgno, hfno, he2]
      rfl
  | watching =>
    obtain ⟨he2, hperm, hres⟩ := extractById_of_mem itemId c.watching i hng hi
      hid
    have hwno : DataManager.extractById itemId c.watched =
        (c.watched, none) :=
      extractById_of_not_mem itemId c.watched
        (fun j hj hjid => hwg j hj i hi ((hjid.trans hid.symm).symm).symm)
    have hfno : DataManager.extractById itemId c.will_watch =
        (c.will_watch, none) :=
      extractById_of_not_mem itemId c.will_watch
        (fun j hj hjid => hgf i hi j hj (hid.trans hjid.symm))
    refine updateItemStatus_core c now itemId newStatus i ?_ hres ?_ ?_
    · rw [hwno]
      exact fun j hj hjid => hwg j hj i hi (hjid.trans hid.symm)
    · rw [hfno]
      exact fun j hj hjid => hgf i hi j hj (hid.trans hjid.symm)
    · rw [hwno, hfno, he2]
      rfl
  | will_watch =>
    obtain ⟨he2, hperm, hres⟩ := extractById_of_mem itemId c.will_watch i hnf
      hi hid
    have hwno : DataManager.extractById itemId c.watched =
        (c.watched, none) :=
      extractById_of_not_mem itemId c.watched
        (fun j hj hjid => hwf j hj i hi (hjid.trans hid.symm))
    have hgno : DataManager.extractById itemId c.watching =
        (c.watching, none) :=
      extractById_of_not_mem itemId c.watching
        (fun j hj hjid => hgf j hj i hi (hjid.trans hid.symm))
    refine updateItemStatus_core c now itemId newStatus i ?_ ?_ hres ?_
    · rw [hwno]
      exact fun j hj hjid => hwf j hj i hi (hjid.trans hid.symm)
    · rw [hgno]
      exact fun j hj hjid => hgf j hj i hi (hjid.trans hid.symm)
    · rw [he2]
      rfl


/-- C4 witness: moving the sample item from `will_watch` to `watched` at
instant 5. -/
theorem C4_update_item_status_witness :
    ∃ u c2,
      DataManager.updateItemStatus ⟨[], [], [sampleItem]⟩ 5 0 .watched =
        (.ok u, c2) ∧
      u.id = sampleItem.id ∧ u.status = .watched ∧
      u.addedAt = sampleItem.addedAt ∧ u.mediaItem = sampleItem.mediaItem ∧
      (CollectionStatus.watched = .watched → sampleItem.watchedDate = none →
        u.watchedDate = some 5) ∧
      (CollectionStatus.watched = .watched → ∀ d,
        sampleItem.watchedDate = some d → u.watchedDate = some d) ∧
      (CollectionStatus.watched ≠ .watched → u.watchedDate = none) ∧
      (CollectionStatus.watched = .watched → sampleItem.watchedDate = none →
        sampleItem.addedAt ≤ 5 →
        ∃ d, u.watchedDate = some d ∧ sampleItem.addedAt ≤ d) ∧
      u ∈ c2.part .watched ∧
      (∀ q, q ≠ CollectionStatus.watched → ∀ j ∈ c2.part q, j.id ≠ 0) :=
  C4_update_item_status ⟨[], [], [sampleItem]⟩ 5 0 .watched sampleItem
    .will_watch (by decide) (List.mem_singleton_self sampleItem) rfl

/-! ### C7: single-field updates and updatedAt monotonicity -/

theorem find?_id_of_mem (itemId : Nat) (l : List CollectionItem)
    (i : CollectionItem) (hn : (l.map (·.id)).Nodup) (hm : i ∈ l)
    (hid : i.id = itemId) :
    l.find? (·.id == itemId) = some i := by
  induction l with
  | nil => cases hm
  | cons a t ih =>
    rw [List.map_cons, List.nodup_cons] at hn
    by_cases ha : a.id = itemId
    · have hai : a = i := by
        rcases List.mem_cons.mp hm with h | h
        · exact h.symm
        · exfalso
          apply hn.1
          rw [ha, ← hid]
          exact List.mem_map_of_mem (·.id) h
      subst hai
      exact List.find?_cons_of_pos _ (by simpa using ha)
    · rw [List.find?_cons_of_neg _ (by simpa using ha)]
      have hit : i ∈ t := by
        rcases List.mem_cons.mp hm with h | h
        · exact absurd (h ▸ hid) ha
        · exact h
      exact ih hn.2 hit

theorem find?_id_eq_none (itemId : Nat) (l : List CollectionItem)
    (h : ∀ j ∈ l, j.id ≠ itemId) :
    l.find? (·.id == itemId) = none :=
  List.find?_eq_none.mpr (fun x hx => by simpa using h x hx)

/-- A found `updateItemField` returns the spread-updated item. -/
theorem updateItemField_found (c : Collections) (now itemId : Nat)
    (u : FieldUpdate) (i : CollectionItem) (p : CollectionStatus)
    (hn : c.itemIds.Nodup) (hi : i ∈ c.part p) (hid : i.id = itemId) :
    (DataManager.updateItemField c now itemId u).1 =
      .ok (applyFieldUpdate i u now) := by
  obtain ⟨⟨hnw, hng, hnf⟩, hwg, hwf, hgf⟩ := itemIds_parts c hn
  cases p with
  | watched =>
    have h1 : c.watched.find? (·.id == itemId) = some i :=
      find?_id_of_mem itemId c.watched i hnw hi hid
    have h2 : c.watching.find? (·.id == itemId) = none :=
      find?_id_eq_none itemId c.watching
        (fun j hj hjid => hwg i hi j hj (hid.trans hjid.symm))
    have h3 : c.will_watch.find? (·.id == itemId) = none :=
      find?_id_eq_none itemId c.will_watch
        (fun j hj hjid => hwf i hi j hj (hid.trans hjid.symm))
    simp [DataManager.updateItemField, h1, h2, h3, Option.orElse]
  | watching =>
    have h1 : c.watching.find? (·.id == itemId) = some i :=
      find?_id_of_mem itemId c.watching i hng hi hid
    have h3 : c.will_watch.find? (·.id == itemId) = none :=
      find?_id_eq_none itemId c.will_watch
        (fun j hj hjid => hgf i hi j hj (hid.trans hjid.symm))
    simp [DataManager.updateItemField, h1, h3, Option.orElse]
  | will_watch =>
    have h1 : c.will_watch.find? (·.id == itemId) = some i :=
      find?_id_of_mem itemId c.will_watch i hnf hi hid
    simp [DataManager.updateItemField, h1, Option.orElse]

/-- C7: each of `updateItemRating`, `updateItemNotes` and
`updateItemProgress`, given a valid argument and an item present in the
collections, changes only its own optional field and `updatedAt`,
leaving `mediaItem`, `status`, `addedAt` and the other two optional
fields untouched; every item-level mutation stamps `updatedAt` with the
instant of the call, so across any sequence of mutations under a
non-decreasing clock the item's `updatedAt` never decreases. -/
theorem C7_field_update_isolation :
    (∀ (c : Collections) (now itemId : Nat) (i : CollectionItem)
        (p : CollectionStatus) (r : ℚ),
      c.itemIds.Nodup → i ∈ c.part p → i.id = itemId → 1 ≤ r → r ≤ 10 →
      ∃ res c2,
        DataManager.updateItemRating c now itemId r = (.ok res, c2) ∧
        res.mediaItem = i.mediaItem ∧ res.status = i.status ∧
        res.addedAt = i.addedAt ∧ res.notes = i.notes ∧
        res.progress = i.progress ∧ res.watchedDate = i.watchedDate ∧
        res.userRating = some r ∧ res.updatedAt = now) ∧
    (∀ (c : Collections) (now itemId : Nat) (i : CollectionItem)
        (p : CollectionStatus) (notes : String),
      c.itemIds.Nodup → i ∈ c.part p → i.id = itemId →
      notes.length ≤ 500 →
      ∃ res c2,
        DataManager.updateItemNotes c now itemId notes = (.ok res, c2) ∧
        res.mediaItem = i.mediaItem ∧ res.status = i.status ∧
        res.addedAt = i.addedAt ∧ res.userRating = i.userRating ∧
        res.progress = i.progress ∧ res.watchedDate = i.watchedDate ∧
        res.notes = some (jsTrim notes) ∧ res.updatedAt = now) ∧
    (∀ (c : Collections) (now itemId : Nat) (i : CollectionItem)
        (p : CollectionStatus) (progress : ℚ),
      c.itemIds.Nodup → i ∈ c.part p → i.id = itemId →
      0 ≤ progress → progress ≤ 100 →
      ∃ res c2,
        DataManager.updateItemProgress c now itemId progress =
          (.ok res, c2) ∧
        res.mediaItem = i.mediaItem ∧ res.status = i.status ∧
        res.addedAt = i.addedAt ∧ res.userRating = i.userRating ∧
        res.notes = i.notes ∧ res.watchedDate = i.watchedDate ∧
        res.progress = some progress ∧ res.updatedAt = now) ∧
    (∀ (i : CollectionItem) (t : Nat) (m : ItemMutation),
      (applyMutation i (t, m)).updatedAt = t) ∧
    (∀ (i : CollectionItem) (t : Nat) (m : ItemMutation),
      i.updatedAt ≤ t → i.updatedAt ≤ (applyMutation i (t, m)).updatedAt) := by
  have hstep : ∀ (i : CollectionItem) (t : Nat) (m : ItemMutation),
      (applyMutation i (t, m)).updatedAt = t := by
    intro i t m
    cases m with
    | setStatus st => rfl
    | field u => cases u <;> rfl
  refine ⟨?_, ?_, ?_, hstep, ?_⟩
  · intro c now itemId i p r hn hi hid hr1 hr2
    have hfound := updateItemField_found c now itemId (.rating r) i p hn hi
      hid
    have hcond : ¬(r < 1 ∨ 10 < r) := by
      push_neg
      exact ⟨hr1, hr2⟩
    refine ⟨applyFieldUpdate i (.rating r) now,
      (DataManager.updateItemField c now itemId (.rating r)).2, ?_,
      rfl, rfl, rfl, rfl, rfl, rfl, rfl, rfl⟩
    rw [DataManager.updateItemRating, if_neg hcond]
    exact Prod.ext hfound rfl
  · intro c now itemId i p notes hn hi hid hlen
    have hfound := updateItemField_found c now itemId
      (.noteText (jsTrim notes)) i p hn hi hid
    have hcond : ¬(500 < notes.length) := by omega
    refine ⟨applyFieldUpdate i (.noteText (jsTrim notes)) now,
      (DataManager.updateItemField c now itemId
        (.noteText (jsTrim notes))).2, ?_,
      rfl, rfl, rfl, rfl, rfl, rfl, rfl, rfl⟩
    rw [DataManager.updateItemNotes, if_neg hcond]
    exact Prod.ext hfound rfl
  · intro c now itemId i p progress hn hi hid hp1 hp2
    have hfound := updateItemField_found c now itemId (.progress progress)
      i p hn hi hid
    have hcond : ¬(progress < 0 ∨ 100 < progress) := by
      push_neg
      exact ⟨hp1, hp2⟩
    refine ⟨applyFieldUpdate i (.progress progress) now,
      (DataManager.updateItemField c now itemId (.progress progress)).2, ?_,
      rfl, rfl, rfl, rfl, rfl, rfl, rfl, rfl⟩
    rw [DataManager.updateItemProgress, if_neg hcond]
    exact Prod.ext hfound rfl
  · intro i t m h
    rw [hstep i t m]
    exact h

/-- C7 witness: rating, notes and progress updates on the sample item,
plus a mutation step at a later instant. -/
theorem C7_field_update_isolation_witness :
    (∃ res c2,
      DataManager.updateItemRating ⟨[], [], [sampleItem]⟩ 5 0 7 =
        (.ok res, c2) ∧
      res.mediaItem = sampleItem.mediaItem ∧ res.status = sampleItem.status ∧
      res.addedAt = sampleItem.addedAt ∧ res.notes = sampleItem.notes ∧
      res.progress = sampleItem.progress ∧
      res.watchedDate = sampleItem.watchedDate ∧
      res.userRating = some 7 ∧ res.updatedAt = 5) ∧
    (∃ res c2,
      DataManager.updateItemNotes ⟨[], [], [sampleItem]⟩ 6 0 " fine " =
        (.ok res, c2) ∧
      res.mediaItem = sampleItem.mediaItem ∧ res.status = sampleItem.status ∧
      res.addedAt = sampleItem.addedAt ∧
      res.userRating = sampleItem.userRating ∧
      res.progress = sampleItem.progress ∧
      res.watchedDate = sampleItem.watchedDate ∧
      res.notes = some (jsTrim " fine ") ∧ res.updatedAt = 6) ∧
    (∃ res c2,
      DataManager.updateItemProgress ⟨[], [], [sampleItem]⟩ 7 0 50 =
        (.ok res, c2) ∧
      res.mediaItem = sampleItem.mediaItem ∧ res.status = sampleItem.status ∧
      res.addedAt = sampleItem.addedAt ∧
      res.userRating = sampleItem.userRating ∧
      res.notes = sampleItem.notes ∧
      res.watchedDate = sampleItem.watchedDate ∧
      res.progress = some 50 ∧ res.updatedAt = 7) ∧
    sampleItem.updatedAt ≤
      (applyMutation sampleItem (9, .setStatus .watched)).updatedAt :=
  ⟨C7_field_update_isolation.1 ⟨[], [], [sampleItem]⟩ 5 0 sampleItem
      .will_watch 7 (by decide) (List.mem_singleton_self sampleItem) rfl
      (by norm_num) (by norm_num),
   C7_field_update_isolation.2.1 ⟨[], [], [sampleItem]⟩ 6 0 sampleItem
      .will_watch " fine " (by decide) (List.mem_singleton_self sampleItem)
      rfl (by decide),
   C7_field_update_isolation.2.2.1 ⟨[], [], [sampleItem]⟩ 7 0 sampleItem
      .will_watch 50 (by decide) (List.mem_singleton_self sampleItem) rfl
      (by norm_num) (by norm_num),
   C7_field_update_isolation.2.2.2.2 sampleItem 9 (.setStatus .watched)
      (by decide)⟩


/-! ### C3: partition exclusivity along operation sequences -/

theorem totalSize_eq_length_items (c : Collections) :
    c.totalSize = c.items.length := by
  simp [Collections.totalSize, Collections.items]
  omega

theorem itemIds_setPart_append (c : Collections) (st : CollectionStatus)
    (x : CollectionItem) :
    ((c.setPart st (c.part st ++ [x])).itemIds).Perm (x.id :: c.itemIds) := by
  have h := (items_setPart_append c st x).map (·.id)
  simpa [Collections.itemIds] using h

theorem extractById_none_fst (itemId : Nat) (l : List CollectionItem)
    (h : (DataManager.extractById itemId l).2 = none) :
    (DataManager.extractById itemId l).1 = l := by
  induction l with
  | nil => rfl
  | cons a t ih =>
    by_cases ha : a.id = itemId
    · simp [DataManager.extractById, ha] at h
    · have ht : (DataManager.extractById itemId t).2 = none := by
        simpa [DataManager.extractById, ha] using h
      have := ih ht
      simp [DataManager.extractById, ha, this]

theorem extractById_some_spec (itemId : Nat) (l : List CollectionItem)
    (b : CollectionItem)
    (h : (DataManager.extractById itemId l).2 = some b) :
    b ∈ l ∧ b.id = itemId ∧
      l.Perm (b :: (DataManager.extractById itemId l).1) := by
  induction l with
  | nil => simp [DataManager.extractById] at h
  | cons a t ih =>
    by_cases ha : a.id = itemId
    · have hab : a = b := by
        simpa [DataManager.extractById, ha] using h
      subst hab
      refine ⟨List.mem_cons_self a t, ha, ?_⟩
      simp [DataManager.extractById, ha]
    · have ht : (DataManager.extractById itemId t).2 = some b := by
        simpa [DataManager.extractById, ha] using h
      obtain ⟨h1, h2, h3⟩ := ih ht
      refine ⟨List.mem_cons_of_mem a h1, h2, ?_⟩
      have hcons : (DataManager.extractById itemId (a :: t)).1 =
          a :: (DataManager.extractById itemId t).1 := by
        simp [DataManager.extractById, ha]
      rw [hcons]
      exact (h3.cons a).trans
        (List.Perm.swap b a (DataManager.extractById itemId t).1)

theorem items_perm_extract (c : Collections) (p : CollectionStatus)
    (item : CollectionItem) (rest : List CollectionItem)
    (hp : (c.part p).Perm (item :: rest)) :
    c.items.Perm (item :: (c.setPart p rest).items) := by
  cases p with
  | watched =>
    simp only [Collections.part] at hp
    simp only [Collections.setPart, Collections.items]
    have h2 := (hp.append_right c.watching).append_right c.will_watch
    simpa using h2
  | watching =>
    simp only [Collections.part] at hp
    simp only [Collections.setPart, Collections.items]
    have h1 := (List.Perm.append_left c.watched hp).trans List.perm_middle
    have h2 := h1.append_right c.will_watch
    simpa using h2
  | will_watch =>
    simp only [Collections.part] at hp
    simp only [Collections.setPart, Collections.items]
    have h1 := List.Perm.append_left (c.watched ++ c.watching) hp
    have h2 := h1.trans List.perm_middle
    simpa using h2


/-- Moving one item `b` out of the record (leaving `c1`) and appending its
status-update to the target partition preserves the id invariants and the
total size. -/
theorem move_preserves (c c1 : Collections) (nid now : Nat)
    (status : CollectionStatus) (b : CollectionItem)
    (hmn : c.mediaIds.Nodup) (hin : c.itemIds.Nodup)
    (hlt : ∀ i ∈ c.items, i.id < nid)
    (hperm : c.items.Perm (b :: c1.items)) :
    (c1.setPart status (c1.part status ++
      [updateCollectionItemStatus b status now])).mediaIds.Nodup ∧
    (c1.setPart status (c1.part status ++
      [updateCollectionItemStatus b status now])).itemIds.Nodup ∧
    (∀ i ∈ (c1.setPart status (c1.part status ++
      [updateCollectionItemStatus b status now])).items, i.id < nid) ∧
    (c1.setPart status (c1.part status ++
      [updateCollectionItemStatus b status now])).totalSize = c.totalSize := by
  have hpush := items_setPart_append c1 status
    (updateCollectionItemStatus b status now)
  have hpermM : (c1.setPart status (c1.part status ++
      [updateCollectionItemStatus b status now])).mediaIds.Perm
      c.mediaIds := by
    have h1 := hpush.map (fun i => i.mediaItem.id)
    have h2 := hperm.map (fun i => i.mediaItem.id)
    have h1m : (c1.setPart status (c1.part status ++
        [updateCollectionItemStatus b status now])).mediaIds.Perm
        (b.mediaItem.id :: c1.mediaIds) := by
      simpa [Collections.mediaIds] using h1
    have h2m : c.mediaIds.Perm (b.mediaItem.id :: c1.mediaIds) := by
      simpa [Collections.mediaIds] using h2
    exact h1m.trans h2m.symm
  have hpermI : (c1.setPart status (c1.part status ++
      [updateCollectionItemStatus b status now])).itemIds.Perm
      c.itemIds := by
    have h1 := hpush.map (·.id)
    have h2 := hperm.map (·.id)
    have h1m : (c1.setPart status (c1.part status ++
        [updateCollectionItemStatus b status now])).itemIds.Perm
        (b.id :: c1.itemIds) := by
      simpa [Collections.itemIds] using h1
    have h2m : c.itemIds.Perm (b.id :: c1.itemIds) := by
      simpa [Collections.itemIds] using h2
    exact h1m.trans h2m.symm
  refine ⟨hpermM.nodup_iff.mpr hmn, hpermI.nodup_iff.mpr hin, ?_, ?_⟩
  · intro j hj
    rcases List.mem_cons.mp (hpush.mem_iff.mp hj) with h | h
    · have hb : b ∈ c.items := hperm.mem_iff.mpr (List.mem_cons_self b _)
      have : j.id = b.id := by rw [h]; rfl
      rw [this]
      exact hlt b hb
    · exact hlt j (hperm.mem_iff.mpr (List.mem_cons_of_mem b h))
  · rw [totalSize_eq_length_items, totalSize_eq_length_items,
      hpush.length_eq, hperm.length_eq]
    rfl

/-- Removing one item `b` from the record (leaving `c1`) preserves the id
invariants and shrinks the total size by one. -/
theorem shrink_preserves (c c1 : Collections) (nid : Nat)
    (b : CollectionItem)
    (hmn : c.mediaIds.Nodup) (hin : c.itemIds.Nodup)
    (hlt : ∀ i ∈ c.items, i.id < nid)
    (hperm : c.items.Perm (b :: c1.items)) :
    c1.mediaIds.Nodup ∧ c1.itemIds.Nodup ∧
    (∀ i ∈ c1.items, i.id < nid) ∧ c1.totalSize + 1 = c.totalSize := by
  have h2m : c.mediaIds.Perm (b.mediaItem.id :: c1.mediaIds) := by
    simpa [Collections.mediaIds] using hperm.map (fun i => i.mediaItem.id)
  have h2i : c.itemIds.Perm (b.id :: c1.itemIds) := by
    simpa [Collections.itemIds] using hperm.map (·.id)
  refine ⟨?_, ?_, ?_, ?_⟩
  · exact (List.nodup_cons.mp (h2m.nodup_iff.mp hmn)).2
  · exact (List.nodup_cons.mp (h2i.nodup_iff.mp hin)).2
  · intro j hj
    exact hlt j (hperm.mem_iff.mpr (List.mem_cons_of_mem b hj))
  · rw [totalSize_eq_length_items, totalSize_eq_length_items,
      hperm.length_eq]
    rfl


/-- Every operation preserves the invariant, and the size change matches
the success flags: a successful add grows the record by one, a
successful remove shrinks it by one, everything else leaves it as is. -/
theorem step_preserves (s : DMState) (o : Op) (hInv : DMInv s) :
    DMInv (s.step o).1 ∧
    (s.step o).1.collections.totalSize +
        (if (s.step o).2.2 then 1 else 0) =
      s.collections.totalSize + (if (s.step o).2.1 then 1 else 0) := by
  obtain ⟨hmn, hin, hlt⟩ := hInv
  cases o with
  | add m status =>
    cases hfind : DataManager.findItemByMediaId s.collections m.id with
    | some a =>
      have hstep : s.step (.add m status) =
          (⟨s.collections, s.nextId, s.now + 1⟩, false, false) := by
        simp [DMState.step, DataManager.addItem, hfind]
      rw [hstep]
      exact ⟨⟨hmn, hin, hlt⟩, rfl⟩
    | none =>
      have hadd : DataManager.addItem s.collections s.nextId s.now m
          status =
          (.ok (createCollectionItem m status s.nextId s.now),
           s.collections.setPart status (s.collections.part status ++
             [createCollectionItem m status s.nextId s.now])) := by
        simp [DataManager.addItem, hfind]
      have hstep : s.step (.add m status) =
          (⟨s.collections.setPart status (s.collections.part status ++
              [createCollectionItem m status s.nextId s.now]),
            s.nextId + 1, s.now + 1⟩, true, false) := by
        simp [DMState.step, hadd]
      rw [hstep]
      have hpermM := mediaIds_setPart_append s.collections status
        (createCollectionItem m status s.nextId s.now)
      have hpermI := itemIds_setPart_append s.collections status
        (createCollectionItem m status s.nextId s.now)
      have hpermItems := items_setPart_append s.collections status
        (createCollectionItem m status s.nextId s.now)
      have hnotmem : m.id ∉ s.collections.mediaIds :=
        (findItemByMediaId_eq_none_iff s.collections m.id).mp hfind
      have hidnot : s.nextId ∉ s.collections.itemIds := by
        intro hmem
        simp only [Collections.itemIds, List.mem_map] at hmem
        obtain ⟨j, hj, hjid⟩ := hmem
        exact absurd (hjid ▸ hlt j hj) (lt_irrefl _)
      refine ⟨⟨?_, ?_, ?_⟩, ?_⟩
      · exact hpermM.nodup_iff.mpr (List.nodup_cons.mpr ⟨hnotmem, hmn⟩)
      · exact hpermI.nodup_iff.mpr (List.nodup_cons.mpr ⟨hidnot, hin⟩)
      · intro j hj
        rcases List.mem_cons.mp (hpermItems.mem_iff.mp hj) with h | h
        · have : j.id = s.nextId := by rw [h]; rfl
          rw [this]
          exact Nat.lt_succ_self s.nextId
        · exact Nat.lt_succ_of_lt (hlt j h)
      · simp only [if_true, if_false]
        rw [totalSize_eq_length_items, totalSize_eq_length_items,
          hpermItems.length_eq]
        simp
  | setStatus itemId status =>
    obtain ⟨⟨hnw, hng, hnf⟩, hwg, hwf, hgf⟩ := itemIds_parts s.collections
      hin
    cases hf2 :
        (DataManager.extractById itemId s.collections.will_watch).2 with
    | some b =>
      obtain ⟨hbm, hbid, hbperm⟩ := extractById_some_spec itemId
        s.collections.will_watch b hf2
      have hwno : DataManager.extractById itemId s.collections.watched =
          (s.collections.watched, none) :=
        extractById_of_not_mem itemId s.collections.watched
          (fun j hj hjid => hwf j hj b hbm (hjid.trans hbid.symm))
      have hgno : DataManager.extractById itemId s.collections.watching =
          (s.collections.watching, none) :=
        extractById_of_not_mem itemId s.collections.watching
          (fun j hj hjid => hgf j hj b hbm (hjid.trans hbid.symm))
      have hperm : s.collections.items.Perm
          (b :: ((s.collections.setPart .will_watch
            (DataManager.extractById itemId
              s.collections.will_watch).1)).items) :=
        items_perm_extract s.collections .will_watch b _ hbperm
      obtain ⟨k1, k2, k3, k4⟩ := move_preserves s.collections _ s.nextId
        s.now status b hmn hin hlt hperm
      have hupd : DataManager.updateItemStatus s.collections s.now itemId
          status =
          (.ok (updateCollectionItemStatus b status s.now),
           ((s.collections.setPart .will_watch
              (DataManager.extractById itemId
                s.collections.will_watch).1)).setPart status
             (((s.collections.setPart .will_watch
                (DataManager.extractById itemId
                  s.collections.will_watch).1)).part status ++
              [updateCollectionItemStatus b status s.now])) := by
        simp [DataManager.updateItemStatus, hf2, hwno, hgno, Option.orElse,
          Collections.setPart]
      have hstep : s.step (.setStatus itemId status) =
          (⟨((s.collections.setPart .will_watch
              (DataManager.extractById itemId
                s.collections.will_watch).1)).setPart status
             (((s.collections.setPart .will_watch
                (DataManager.extractById itemId
                  s.collections.will_watch).1)).part status ++
              [updateCollectionItemStatus b status s.now]),
            s.nextId, s.now + 1⟩, false, false) := by
        simp [DMState.step, hupd]
      rw [hstep]
      exact ⟨⟨k1, k2, k3⟩, by simp [k4]⟩
    | none =>
      cases hg2 :
          (DataManager.extractById itemId s.collections.watching).2 with
      | some b =>
        obtain ⟨hbm, hbid, hbperm⟩ := extractById_some_spec itemId
          s.collections.watching b hg2
        have hwno : DataManager.extractById itemId s.collections.watched =
            (s.collections.watched, none) :=
          extractById_of_not_mem itemId s.collections.watched
            (fun j hj hjid => hwg j hj b hbm (hjid.trans hbid.symm))
        have hfno : DataManager.extractById itemId
            s.collections.will_watch =
            (s.collections.will_watch, none) := by
          have := extractById_none_fst itemId s.collections.will_watch hf2
          exact Prod.ext this hf2
        have hperm : s.collections.items.Perm
            (b :: ((s.collections.setPart .watching
              (DataManager.extractById itemId
                s.collections.watching).1)).items) :=
          items_perm_extract s.collections .watching b _ hbperm
        obtain ⟨k1, k2, k3, k4⟩ := move_preserves s.collections _ s.nextId
          s.now status b hmn hin hlt hperm
        have hupd : DataManager.updateItemStatus s.collections s.now itemId
            status =
            (.ok (updateCollectionItemStatus b status s.now),
             ((s.collections.setPart .watching
                (DataManager.extractById itemId
                  s.collections.watching).1)).setPart status
               (((s.collections.setPart .watching
                  (DataManager.extractById itemId
                    s.collections.watching).1)).part status ++
                [updateCollectionItemStatus b status s.now])) := by
          simp [DataManager.updateItemStatus, hf2, hg2, hwno, hfno,
            Option.orElse, Collections.setPart]
        have hstep : s.step (.setStatus itemId status) =
            (⟨((s.collections.setPart .watching
                (DataManager.extractById itemId
                  s.collections.watching).1)).setPart status
               (((s.collections.setPart .watching
                  (DataManager.extractById itemId
                    s.collections.watching).1)).part status ++
                [updateCollectionItemStatus b status s.now]),
              s.nextId, s.now + 1⟩, false, false) := by
          simp [DMState.step, hupd]
        rw [hstep]
        exact ⟨⟨k1, k2, k3⟩, by simp [k4]⟩
      | none =>
        cases hw2 :
            (DataManager.extractById itemId s.collections.watched).2 with
        | some b =>
          obtain ⟨hbm, hbid, hbperm⟩ := extractById_some_spec itemId
            s.collections.watched b hw2
          have hgno : DataManager.extractById itemId
              s.collections.watching = (s.collections.watching, none) := by
            have := extractById_none_fst itemId s.collections.watching hg2
            exact Prod.ext this hg2
          have hfno : DataManager.extractById itemId
              s.collections.will_watch =
              (s.collections.will_watch, none) := by
            have := extractById_none_fst itemId s.collections.will_watch hf2
            exact Prod.ext this hf2
          have hperm : s.collections.items.Perm
              (b :: ((s.collections.setPart .watched
                (DataManager.extractById itemId
                  s.collections.watched).1)).items) :=
            items_perm_extract s.collections .watched b _ hbperm
          obtain ⟨k1, k2, k3, k4⟩ := move_preserves s.collections _
            s.nextId s.now status b hmn hin hlt hperm
          have hupd : DataManager.updateItemStatus s.collections s.now
              itemId status =
              (.ok (updateCollectionItemStatus b status s.now),
               ((s.collections.setPart .watched
                  (DataManager.extractById itemId
                    s.collections.watched).1)).setPart status
                 (((s.collections.setPart .watched
                    (DataManager.extractById itemId
                      s.collections.watched).1)).part status ++
                  [updateCollectionItemStatus b status s.now])) := by
            simp [DataManager.updateItemStatus, hf2, hg2, hw2, hgno, hfno,
              Option.orElse, Collections.setPart]
          have hstep : s.step (.setStatus itemId status) =
              (⟨((s.collections.setPart .watched
                  (DataManager.extractById itemId
                    s.collections.watched).1)).setPart status
                 (((s.collections.setPart .watched
                    (DataManager.extractById itemId
                      s.collections.watched).1)).part status ++
                  [updateCollectionItemStatus b status s.now]),
                s.nextId, s.now + 1⟩, false, false) := by
            simp [DMState.step, hupd]
          rw [hstep]
          exact ⟨⟨k1, k2, k3⟩, by simp [k4]⟩
        | none =>
          have hupd : DataManager.updateItemStatus s.collections s.now
              itemId status =
              (.error ⟨"UPDATE_STATUS_ERROR",
                "Failed to update item status: " ++
                  StorageErr.interp ⟨"ITEM_NOT_FOUND", "Item not found"⟩⟩,
               s.collections) := by
            simp [DataManager.updateItemStatus, hf2, hg2, hw2,
              Option.orElse]
          have hstep : s.step (.setStatus itemId status) =
              (⟨s.collections, s.nextId, s.now + 1⟩, false, false) := by
            simp [DMState.step, hupd]
          rw [hstep]
          exact ⟨⟨hmn, hin, hlt⟩, rfl⟩
  | remove itemId =>
    obtain ⟨⟨hnw, hng, hnf⟩, hwg, hwf, hgf⟩ := itemIds_parts s.collections
      hin
    cases hw2 :
        (DataManager.extractById itemId s.collections.watched).2 with
    | some b =>
      obtain ⟨hbm, hbid, hbperm⟩ := extractById_some_spec itemId
        s.collections.watched b hw2
      have hgno : DataManager.extractById itemId s.collections.watching =
          (s.collections.watching, none) :=
        extractById_of_not_mem itemId s.collections.watching
          (fun j hj hjid => hwg b hbm j hj (hbid.trans hjid.symm))
      have hfno : DataManager.extractById itemId s.collections.will_watch =
          (s.collections.will_watch, none) :=
        extractById_of_not_mem itemId s.collections.will_watch
          (fun j hj hjid => hwf b hbm j hj (hbid.trans hjid.symm))
      have hperm : s.collections.items.Perm
          (b :: ((s.collections.setPart .watched
            (DataManager.extractById itemId
              s.collections.watched).1)).items) :=
        items_perm_extract s.collections .watched b _ hbperm
      obtain ⟨k1, k2, k3, k4⟩ := shrink_preserves s.collections _ s.nextId
        b hmn hin hlt hperm
      have hrm : DataManager.removeItem s.collections itemId =
          (.ok (), (s.collections.setPart .watched
            (DataManager.extractById itemId
              s.collections.watched).1)) := by
        simp [DataManager.removeItem, hw2, hgno, hfno, Collections.setPart]
      have hstep : s.step (.remove itemId) =
          (⟨(s.collections.setPart .watched
              (DataManager.extractById itemId
                s.collections.watched).1),
            s.nextId, s.now + 1⟩, false, true) := by
        simp [DMState.step, hrm]
      rw [hstep]
      refine ⟨⟨k1, k2, k3⟩, ?_⟩
      simpa using k4
    | none =>
      cases hg2 :
          (DataManager.extractById itemId s.collections.watching).2 with
      | some b =>
        obtain ⟨hbm, hbid, hbperm⟩ := extractById_some_spec itemId
          s.collections.watching b hg2
        have hwno : DataManager.extractById itemId s.collections.watched =
            (s.collections.watched, none) := by
          have := extractById_none_fst itemId s.collections.watched hw2
          exact Prod.ext this hw2
        have hfno : DataManager.extractById itemId
            s.collections.will_watch = (s.collections.will_watch, none) :=
          extractById_of_not_mem itemId s.collections.will_watch
            (fun j hj hjid => hgf b hbm j hj (hbid.trans hjid.symm))
        have hperm : s.collections.items.Perm
            (b :: ((s.collections.setPart .watching
              (DataManager.extractById itemId
                s.collections.watching).1)).items) :=
          items_perm_extract s.collections .watching b _ hbperm
        obtain ⟨k1, k2, k3, k4⟩ := shrink_preserves s.collections _
          s.nextId b hmn hin hlt hperm
        have hrm : DataManager.removeItem s.collections itemId =
            (.ok (), (s.collections.setPart .watching
              (DataManager.extractById itemId
                s.collections.watching).1)) := by
          simp [DataManager.removeItem, hw2, hg2, hwno, hfno,
            Collections.setPart]
        have hstep : s.step (.remove itemId) =
            (⟨(s.collections.setPart .watching
                (DataManager.extractById itemId
                  s.collections.watching).1),
              s.nextId, s.now + 1⟩, false, true) := by
          simp [DMState.step, hrm]
        rw [hstep]
        refine ⟨⟨k1, k2, k3⟩, ?_⟩
        simpa using k4
      | none =>
        cases hf2 :
            (DataManager.extractById itemId s.collections.will_watch).2 with
        | some b =>
          obtain ⟨hbm, hbid, hbperm⟩ := extractById_some_spec itemId
            s.collections.will_watch b hf2
          have hwno : DataManager.extractById itemId
              s.collections.watched = (s.collections.watched, none) := by
            have := extractById_none_fst itemId s.collections.watched hw2
            exact Prod.ext this hw2
          have hgno : DataManager.extractById itemId
              s.collections.watching = (s.collections.watching, none) := by
            have := extractById_none_fst itemId s.collections.watching hg2
            exact Prod.ext this hg2
          have hperm : s.collections.items.Perm
              (b :: ((s.collections.setPart .will_watch
                (DataManager.extractById itemId
                  s.collections.will_watch).1)).items) :=
            items_perm_extract s.collections .will_watch b _ hbperm
          obtain ⟨k1, k2, k3, k4⟩ := shrink_preserves s.collections _
            s.nextId b hmn hin hlt hperm
          have hrm : DataManager.removeItem s.collections itemId =
              (.ok (), (s.collections.setPart .will_watch
                (DataManager.extractById itemId
                  s.collections.will_watch).1)) := by
            simp [DataManager.removeItem, hw2, hg2, hf2, hwno, hgno,
              Collections.setPart]
          have hstep : s.step (.remove itemId) =
              (⟨(s.collections.setPart .will_watch
                  (DataManager.extractById itemId
                    s.collections.will_watch).1),
                s.nextId, s.now + 1⟩, false, true) := by
            simp [DMState.step, hrm]
          rw [hstep]
          refine ⟨⟨k1, k2, k3⟩, ?_⟩
          simpa using k4
        | none =>
          have hrm : DataManager.removeItem s.collections itemId =
              (.error ⟨"REMOVE_ITEM_ERROR",
                "Failed to remove item: " ++
                  StorageErr.interp ⟨"ITEM_NOT_FOUND",
                    "Item not found in any collection"⟩⟩,
               s.collections) := by
            simp [DataManager.removeItem, hw2, hg2, hf2]
          have hstep : s.step (.remove itemId) =
              (⟨s.collections, s.nextId, s.now + 1⟩, false, false) := by
            simp [DMState.step, hrm]
          rw [hstep]
          exact ⟨⟨hmn, hin, hlt⟩, rfl⟩


/-- Under distinct media ids, a present id is found in exactly one of the
three partitions. -/
theorem partsContaining_eq_one (c : Collections) (hn : c.mediaIds.Nodup)
    (mid : Nat) (hm : mid ∈ c.mediaIds) :
    c.partsContaining mid = 1 := by
  have hany : ∀ l : List CollectionItem,
      ((l.any (fun i => i.mediaItem.id == mid)) = true) ↔
        mid ∈ l.map (fun i => i.mediaItem.id) := by
    intro l
    simp [List.any_eq_true]
  simp only [Collections.mediaIds, Collections.items, List.map_append]
    at hn hm
  rw [List.nodup_append, List.nodup_append] at hn
  obtain ⟨⟨n1, n2, d12⟩, n3, d123⟩ := hn
  rcases List.mem_append.mp hm with hm1 | hmf
  · rcases List.mem_append.mp hm1 with hmw | hmg
    · have h1 : (c.watched.any (fun i => i.mediaItem.id == mid)) = true :=
        (hany c.watched).mpr hmw
      have h2 : ¬((c.watching.any (fun i => i.mediaItem.id == mid)) =
          true) := by
        rw [hany]
        exact fun hh => d12 hmw hh
      have h3 : ¬((c.will_watch.any (fun i => i.mediaItem.id == mid)) =
          true) := by
        rw [hany]
        exact fun hh => d123 (List.mem_append_left _ hmw) hh
      simp [Collections.partsContaining, h1, h2, h3]
    · have h1 : ¬((c.watched.any (fun i => i.mediaItem.id == mid)) =
          true) := by
        rw [hany]
        exact fun hh => d12 hh hmg
      have h2 : (c.watching.any (fun i => i.mediaItem.id == mid)) = true :=
        (hany c.watching).mpr hmg
      have h3 : ¬((c.will_watch.any (fun i => i.mediaItem.id == mid)) =
          true) := by
        rw [hany]
        exact fun hh => d123 (List.mem_append_right _ hmg) hh
      simp [Collections.partsContaining, h1, h2, h3]
  · have h1 : ¬((c.watched.any (fun i => i.mediaItem.id == mid)) =
        true) := by
      rw [hany]
      exact fun hh => d123 (List.mem_append_left _ hh) hmf
    have h2 : ¬((c.watching.any (fun i => i.mediaItem.id == mid)) =
        true) := by
      rw [hany]
      exact fun hh => d123 (List.mem_append_right _ hh) hmf
    have h3 : (c.will_watch.any (fun i => i.mediaItem.id == mid)) = true :=
      (hany c.will_watch).mpr hmf
    simp [Collections.partsContaining, h1, h2, h3]

/-- C3: along every sequence of add / status-change / remove operations
starting from the empty collections record, each distinct media id
appears in exactly one of the three partitions, and the sum of the three
partition sizes equals the number of successful adds minus the number of
successful removes. -/
theorem C3_partition_exclusivity (ops : List Op) :
    ((runOps ops).1.collections.mediaIds.Nodup ∧
      ∀ mid, mid ∈ (runOps ops).1.collections.mediaIds →
        (runOps ops).1.collections.partsContaining mid = 1) ∧
    (runOps ops).2.2 ≤ (runOps ops).2.1 ∧
    (runOps ops).1.collections.totalSize =
      (runOps ops).2.1 - (runOps ops).2.2 := by
  have main : ∀ (l : List Op) (acc : DMState × Nat × Nat),
      DMInv acc.1 → acc.1.collections.totalSize + acc.2.2 = acc.2.1 →
      DMInv (l.foldl stepCount acc).1 ∧
      (l.foldl stepCount acc).1.collections.totalSize +
        (l.foldl stepCount acc).2.2 = (l.foldl stepCount acc).2.1 := by
    intro l
    induction l with
    | nil =>
      intro acc h1 h2
      exact ⟨h1, h2⟩
    | cons o rest ih =>
      intro acc h1 h2
      rw [List.foldl_cons]
      apply ih
      · exact (step_preserves acc.1 o h1).1
      · have hstep := (step_preserves acc.1 o h1).2
        simp only [stepCount]
        by_cases haf : (acc.1.step o).2.1 <;>
          by_cases hrf : (acc.1.step o).2.2 <;>
            simp only [haf, hrf, if_true, if_false] at hstep ⊢ <;>
              omega
  have hInit : DMInv (DMState.init, (0 : Nat), (0 : Nat)).1 := by
    refine ⟨by decide, by decide, ?_⟩
    intro i hi
    simp [DMState.init, DataManager.emptyCollections, Collections.items]
      at hi
  obtain ⟨hInv, hsize⟩ := main ops (DMState.init, 0, 0) hInit (by decide)
  simp only [runOps]
  refine ⟨⟨hInv.media_nodup, ?_⟩, ?_, ?_⟩
  · intro mid hm
    exact partsContaining_eq_one _ hInv.media_nodup mid hm
  · omega
  · omega


end NextUP
